import Mathlib

/-!
# Verification of the chess rating engine (`chess_rating_system.py`)

A shallow embedding of the rating engine of `ChessRatingSystem`:
line parsing (`process_game` lines 216-255), the three rating updates
(ELO, simplified Glicko-2, USCF), and the per-game bookkeeping
(counters, head-to-head tallies, biggest-win/upset lists, extremes,
history, game records).

Strings are embedded as `List Char`.  Python's floating point arithmetic
is idealised as real arithmetic (`ℝ`), and Python's `round` (banker's
rounding on floats) as Mathlib's `round`; game scores are `ℚ`
(`1`, `1/2`, `0`).  Python dicts are association lists that preserve
insertion order, with in-place update semantics mirrored by
read-modify-write operations in the source's statement order, so that
aliasing (a line in which both player names are equal) behaves exactly
as in Python.
-/

namespace ChessRating

/-- Strings of the Python program, as lists of characters. -/
abbrev Str := List Char

/-- Coerce a Lean string literal to the `List Char` representation. -/
def str (s : String) : Str := s.data

/-! ## Python string primitives used by `process_game` and `format_date` -/

/-- Python `str.strip()`: remove leading and trailing whitespace. -/
def pyStrip (l : Str) : Str :=
  ((l.dropWhile Char.isWhitespace).reverse.dropWhile Char.isWhitespace).reverse

/-- Helper for `pySplit`: accumulates the current word (reversed). -/
def pySplitAux : Str → Str → List Str
  | [], acc => if acc = [] then [] else [acc.reverse]
  | c :: t, acc =>
    if c.isWhitespace then
      if acc = [] then pySplitAux t [] else acc.reverse :: pySplitAux t []
    else pySplitAux t (c :: acc)

/-- Python `str.split()` with no arguments: split on whitespace runs,
dropping empty tokens. -/
def pySplit (l : Str) : List Str := pySplitAux l []

/-- Helper: split a string at its LAST space character, if any. -/
def rsplitSpaceAux : Str → Option (Str × Str)
  | [] => none
  | c :: t =>
    match rsplitSpaceAux t with
    | some (x, y) => some (c :: x, y)
    | none => if c = ' ' then some ([], t) else none

/-- Python `str.rsplit(' ', 1)`: split at the last space character;
a string with no space is returned as a one-element list. -/
def pyRsplitSpace (l : Str) : List Str :=
  match rsplitSpaceAux l with
  | some (x, y) => [x, y]
  | none => [l]

/-- Split a string at the FIRST occurrence of the separator `" - "`
(space, hyphen, space), as Python `str.split(' - ', 1)` does after the
`' - ' in player_part` membership test; `none` when the separator does
not occur. -/
def splitDash : Str → Option (Str × Str)
  | ' ' :: '-' :: ' ' :: rest => some ([], rest)
  | c :: t => (splitDash t).map (fun p => (c :: p.1, p.2))
  | [] => none

/-- Numeric value of a digit string (only used on all-digit strings). -/
def digitsValAux (acc : ℕ) : Str → ℕ
  | [] => acc
  | c :: t => digitsValAux (10 * acc + (c.toNat - 48)) t

/-- Python `int(s)` on a string: optional surrounding whitespace, an
optional single sign, then a nonempty digit run; anything else raises
`ValueError`, modelled as `none`.  (Underscore digit separators, which
Python also accepts, are not modelled; no input in scope uses them.) -/
def pyInt (l : Str) : Option ℤ :=
  match pyStrip l with
  | [] => none
  | c :: d =>
    if c = '+' then
      if d ≠ [] ∧ d.all Char.isDigit then some (digitsValAux 0 d) else none
    else if c = '-' then
      if d ≠ [] ∧ d.all Char.isDigit then some (-(digitsValAux 0 d : ℤ)) else none
    else
      if (c :: d).all Char.isDigit then some (digitsValAux 0 (c :: d)) else none

/-- Python list indexing `l[i]`: negative indices count from the end,
out-of-range indices raise `IndexError`, modelled as `none`. -/
def pyIndex {α : Type} (l : List α) (i : ℤ) : Option α :=
  let j := if i < 0 then (l.length : ℤ) + i else i
  if 0 ≤ j then l[j.toNat]? else none

/-- Decimal rendering of an integer, as Python's `str`/f-string
formatting of an `int`. -/
def intStr (i : ℤ) : Str :=
  if i < 0 then '-' :: Nat.toDigits 10 (-i).toNat else Nat.toDigits 10 i.toNat

/-- The two-character decimal rendering of a number below 100, used to
build concrete `YYYYMMDD` strings. -/
def twoDigits (n : ℕ) : Str :=
  [Char.ofNat (48 + n / 10), Char.ofNat (48 + n % 10)]

/-! ## `format_date` (source lines 197-214) -/

/-- The fixed 12-entry month abbreviation table (source lines 208-209). -/
def months : List Str :=
  [str "Jan", str "Feb", str "Mar", str "Apr", str "May", str "Jun",
   str "Jul", str "Aug", str "Sep", str "Oct", str "Nov", str "Dec"]

/-- `format_date` (source lines 197-214).  An input of length other than
8 (including the empty string) yields `none`; otherwise the slices
`[:4]`, `[4:6]`, `[6:8]` are taken, the month is converted with `int`
and used as a (possibly negative) Python index into `months`, the day is
converted with `int` but never range-checked, and the year substring is
copied verbatim.  `ValueError`/`IndexError` are caught and yield `none`. -/
def format_date (date_str : Str) : Option Str :=
  if date_str.length ≠ 8 then none
  else
    let year := date_str.take 4
    let month := (date_str.drop 4).take 2
    let day := date_str.drop 6
    match pyInt month with
    | none => none
    | some m =>
      match pyIndex months (m - 1) with
      | none => none
      | some month_name =>
        match pyInt day with
        | none => none
        | some d => some (month_name ++ [' '] ++ intStr d ++ [',', ' '] ++ year)

/-! ## Result tokens and line parsing (source lines 186-195, 216-255) -/

/-- `parse_game_result` (source lines 186-195): map a result token to the
white/black score pair, `none` for anything else. -/
def parse_game_result (result : Str) : Option (ℚ × ℚ) :=
  if result = str "1:0" ∨ result = str "1-0" then some (1, 0)
  else if result = str "0:1" ∨ result = str "0-1" then some (0, 1)
  else if result = str "0.5:0.5" ∨ result = str "0.5-0.5" then some (1/2, 1/2)
  else none

/-- Outcome of the parsing phase of `process_game` (source lines 216-255).
`structFail` covers every `return None` that happens before the two
`init_player` calls (lines 218-246); `resultFail` is the `return None`
at line 255, which happens after both players have been initialised. -/
inductive ParseOutcome where
  | structFail : ParseOutcome
  | resultFail (white black : Str) : ParseOutcome
  | ok (white black : Str) (white_score black_score : ℚ)
      (result : Str) (date_str : Option Str) : ParseOutcome

/-- The parsing phase of `process_game` (source lines 216-255), in source
order: strip; empty line fails; whitespace tokenisation with a minimum of
3 tokens; date detection (more than 3 tokens and an 8-character all-digit
final token); re-join without the date (or keep the stripped line);
`rsplit(' ', 1)` into player segment and result token; `" - "` split into
the two names, each stripped; finally the result token is decoded. -/
def parseLine (line : Str) : ParseOutcome :=
  let l := pyStrip line
  if l = [] then ParseOutcome.structFail
  else
    let parts := pySplit l
    if parts.length < 3 then ParseOutcome.structFail
    else
      let lastTok := parts.getLastD []
      let hasDate : Bool :=
        decide (parts.length > 3) && decide (lastTok.length = 8) && lastTok.all Char.isDigit
      let date_str : Option Str := if hasDate then some lastTok else none
      let line_wo : Str := if hasDate then List.intercalate [' '] parts.dropLast else l
      match pyRsplitSpace line_wo with
      | [player_part, result] =>
        match splitDash player_part with
        | none => ParseOutcome.structFail
        | some (w0, b0) =>
          let white := pyStrip w0
          let black := pyStrip b0
          match parse_game_result result with
          | none => ParseOutcome.resultFail white black
          | some (ws, bs) => ParseOutcome.ok white black ws bs result date_str
      | _ => ParseOutcome.structFail

/-! ## Data model (source lines 12-44, 99-111, 350-411) -/

/-- A head-to-head tally (source lines 351-354): the nested
`{'games': 0, 'wins': 0, 'draws': 0, 'losses': 0}` dictionary. -/
structure H2HRecord where
  games : ℕ
  wins : ℕ
  draws : ℕ
  losses : ℕ
deriving DecidableEq

/-- A biggest-win / biggest-upset entry (source lines 285-293 etc.). -/
structure BigRecord where
  opponent : Str
  rating_diff : ℤ
  own_rating : ℤ
  opponent_rating : ℤ
  game_number : ℕ
  date : Option Str
  result : Str
deriving DecidableEq

/-- A rating-history entry (source lines 378-384).  The `date` is `none`
when a raw date was present on the line but `format_date` rejected it
(Python stores `None` in that case). -/
structure HistEntry where
  game : ℕ
  date : Option Str
  elo : ℤ
  glicko2 : ℤ
  uscf : ℤ

/-- A game record (source lines 395-408). -/
structure GameRecord where
  game_number : ℕ
  white_player : Str
  black_player : Str
  result : Str
  date : Option Str
  date_raw : Option Str
  white_rating_before : ℤ
  black_rating_before : ℤ
  white_rating_after : ℤ
  black_rating_after : ℤ
  white_change : ℤ
  black_change : ℤ

/-- Per-player state (source lines 19-44).  ELO, USCF and the stored
(rounded) Glicko rating are integers in Python (`round` returns `int`);
the Glicko deviation and volatility are floats, idealised as `ℝ`.
`rating_history` is created lazily by `process_game` (source lines
370-373), hence the `Option`. -/
structure Player where
  name : Str
  rating : ℤ
  glicko_rating : ℤ
  glicko_deviation : ℝ
  glicko_volatility : ℝ
  uscf_rating : ℤ
  uscf_games : ℕ
  games : ℕ
  wins : ℕ
  draws : ℕ
  losses : ℕ
  opponents : List (Str × H2HRecord)
  biggest_wins : List BigRecord
  biggest_upsets : List BigRecord
  highest_elo : ℤ
  lowest_elo : ℤ
  highest_glicko : ℤ
  lowest_glicko : ℤ
  highest_uscf : ℤ
  lowest_uscf : ℤ
  rating_history : Option (List HistEntry)

/-- The default player record created by `init_player` (source lines
19-44), with `initial_rating = 1200` as instantiated by `main`. -/
noncomputable def defaultPlayer (n : Str) : Player where
  name := n
  rating := 1200
  glicko_rating := 1200
  glicko_deviation := 350
  glicko_volatility := 0.06
  uscf_rating := 1200
  uscf_games := 0
  games := 0
  wins := 0
  draws := 0
  losses := 0
  opponents := []
  biggest_wins := []
  biggest_upsets := []
  highest_elo := 1200
  lowest_elo := 1200
  highest_glicko := 1200
  lowest_glicko := 1200
  highest_uscf := 1200
  lowest_uscf := 1200
  rating_history := none

/-- Engine state: the `players` dict (an insertion-ordered association
list, as a Python dict) and the `games` list. -/
structure RatingState where
  players : List (Str × Player)
  games : List GameRecord

/-- The state of a freshly constructed `ChessRatingSystem`. -/
def initState : RatingState := ⟨[], []⟩

/-! ## Association-list operations modelling Python dicts -/

/-- Dict lookup: first entry with the given key. -/
def alLookup {α : Type} : List (Str × α) → Str → Option α
  | [], _ => none
  | (k, v) :: t, n => if k = n then some v else alLookup t n

/-- Dict update of an existing key (keeps its position); appends when the
key is absent, as Python dict assignment does. -/
def alSet {α : Type} : List (Str × α) → Str → α → List (Str × α)
  | [], n, v => [(n, v)]
  | (k, w) :: t, n, v => if k = n then (n, v) :: t else (k, w) :: alSet t n v

def findPlayer (s : RatingState) (n : Str) : Option Player :=
  alLookup s.players n

/-- `self.players[name]` on a name known to be present; the default is
never reached in `process_game` (both names are initialised first). -/
noncomputable def getP (s : RatingState) (n : Str) : Player :=
  (findPlayer s n).getD (defaultPlayer n)

/-- `init_player` (source lines 19-44): create the entry if absent
(appending at the end, as Python dict insertion does). -/
noncomputable def init_player (s : RatingState) (n : Str) : RatingState :=
  match alLookup s.players n with
  | some _ => s
  | none => { s with players := s.players ++ [(n, defaultPlayer n)] }

/-- An in-place mutation `self.players[n] = f (self.players[n])`;
a no-op when the key is absent (never the case in `process_game`). -/
def modifyPlayer (s : RatingState) (n : Str) (f : Player → Player) : RatingState :=
  match alLookup s.players n with
  | none => s
  | some p => { s with players := alSet s.players n (f p) }

/-! ## ELO (source lines 46-49) -/

/-- The expected score of player A, `1 / (1 + 10 ** ((rating_b -
rating_a) / 400))` (source line 48 and, identically, line 78). -/
noncomputable def expected_score (rating_a rating_b : ℤ) : ℝ :=
  1 / (1 + (10 : ℝ) ^ (((rating_b : ℝ) - (rating_a : ℝ)) / 400))

/-- `calculate_elo_change` (source lines 46-49), with the fixed
`k_factor = 32` that `main` constructs the system with. -/
noncomputable def calculate_elo_change (rating_a rating_b : ℤ) (score_a : ℚ) : ℤ :=
  round ((32 : ℝ) * ((score_a : ℝ) - expected_score rating_a rating_b))

/-! ## USCF (source lines 67-97) -/

/-- `get_uscf_k_factor` (source lines 67-74). -/
def get_uscf_k_factor (player : Player) : ℤ :=
  if player.uscf_games < 20 then 40
  else if player.uscf_rating < 2100 then 32
  else 24

/-- `calculate_uscf_change` (source lines 76-79); its expected-score
formula is the same text as line 48. -/
noncomputable def calculate_uscf_change (rating_a rating_b : ℤ) (score_a : ℚ)
    (k_factor : ℤ) : ℤ :=
  round ((k_factor : ℝ) * ((score_a : ℝ) - expected_score rating_a rating_b))

/-- `update_uscf_ratings` (source lines 81-97): K-factors and both
changes are computed from the two records as read at entry, then the
four mutations happen in source order (rating a, rating b, count a,
count b), which also reproduces Python's aliasing behaviour when the
two names coincide. -/
noncomputable def uscfStep (s : RatingState) (w b : Str) (score_a : ℚ) : RatingState :=
  let pa := getP s w
  let pb := getP s b
  let k_a := get_uscf_k_factor pa
  let k_b := get_uscf_k_factor pb
  let change_a := calculate_uscf_change pa.uscf_rating pb.uscf_rating score_a k_a
  let change_b := calculate_uscf_change pb.uscf_rating pa.uscf_rating (1 - score_a) k_b
  let s1 := modifyPlayer s w (fun p => { p with uscf_rating := p.uscf_rating + change_a })
  let s2 := modifyPlayer s1 b (fun p => { p with uscf_rating := p.uscf_rating + change_b })
  let s3 := modifyPlayer s2 w (fun p => { p with uscf_games := p.uscf_games + 1 })
  modifyPlayer s3 b (fun p => { p with uscf_games := p.uscf_games + 1 })

/-! ## Glicko-2 (source lines 51-65, 133-184) -/

/-- `glicko2_scale` (source lines 51-53). -/
noncomputable def glicko2_scale (rating : ℝ) : ℝ := (rating - 1200) / 173.7178

/-- `glicko2_unscale` (source lines 55-57). -/
noncomputable def glicko2_unscale (mu : ℝ) : ℝ := mu * 173.7178 + 1200

/-- `glicko2_g` (source lines 59-61). -/
noncomputable def glicko2_g (phi : ℝ) : ℝ :=
  1 / Real.sqrt (1 + 3 * phi * phi / (Real.pi * Real.pi))

/-- `glicko2_e` (source lines 63-65). -/
noncomputable def glicko2_e (mu mu_j phi_j : ℝ) : ℝ :=
  1 / (1 + Real.exp (-glicko2_g phi_j * (mu - mu_j)))

/-- The estimated variance `v = 1 / (g² E (1-E))` (source lines 150, 167). -/
noncomputable def glicko_v (mu mu_j phi_j : ℝ) : ℝ :=
  1 / (glicko2_g phi_j * glicko2_g phi_j * glicko2_e mu mu_j phi_j *
       (1 - glicko2_e mu mu_j phi_j))

/-- The estimated improvement `delta = v * g * (score - E)`
(source lines 151, 168). -/
noncomputable def glicko_delta (mu mu_j phi_j score : ℝ) : ℝ :=
  glicko_v mu mu_j phi_j * glicko2_g phi_j * (score - glicko2_e mu mu_j phi_j)

/-- The simplified new volatility `min(sqrt((sigma² + delta²/v)/2), 0.2)`
(source lines 153-155 and 170-171). -/
noncomputable def glicko_sigma_new (sigma mu mu_j phi_j score : ℝ) : ℝ :=
  min (Real.sqrt ((sigma * sigma +
    glicko_delta mu mu_j phi_j score * glicko_delta mu mu_j phi_j score /
      glicko_v mu mu_j phi_j) / 2)) 0.2

/-- The new deviation, on the internal scale (source lines 158-159 and
173-174). -/
noncomputable def glicko_phi_new (phi sigma mu mu_j phi_j score : ℝ) : ℝ :=
  let sn := glicko_sigma_new sigma mu mu_j phi_j score
  let phi_star := Real.sqrt (phi * phi + sn * sn)
  1 / Real.sqrt (1 / (phi_star * phi_star) + 1 / glicko_v mu mu_j phi_j)

/-- The new rating, on the internal scale (source lines 160 and 175). -/
noncomputable def glicko_mu_new (phi sigma mu mu_j phi_j score : ℝ) : ℝ :=
  mu + glicko_phi_new phi sigma mu mu_j phi_j score *
    glicko_phi_new phi sigma mu mu_j phi_j score *
    glicko2_g phi_j * (score - glicko2_e mu mu_j phi_j)

/-- Python `round(x, 1)` (source lines 179, 183), idealised. -/
noncomputable def round1 (x : ℝ) : ℝ := ((round (10 * x) : ℤ) : ℝ) / 10

/-- Python `round(x, 4)` (source lines 180, 184), idealised. -/
noncomputable def round4 (x : ℝ) : ℝ := ((round (10000 * x) : ℤ) : ℝ) / 10000

/-- `update_glicko2_ratings` (source lines 133-184): all inputs are read
from the two records at entry, each side's new values are computed from
those pre-game values, then player A's three fields are assigned and
then player B's (so with aliased names B's assignments win, as in
Python).  The unused system constant `tau = 0.5` (line 144) is dropped. -/
noncomputable def glickoStep (s : RatingState) (w b : Str) (score_a : ℚ) : RatingState :=
  let pa := getP s w
  let pb := getP s b
  let mu_a := glicko2_scale (pa.glicko_rating : ℝ)
  let mu_b := glicko2_scale (pb.glicko_rating : ℝ)
  let phi_a := pa.glicko_deviation / 173.7178
  let phi_b := pb.glicko_deviation / 173.7178
  let sigma_a := pa.glicko_volatility
  let sigma_b := pb.glicko_volatility
  let score_b : ℚ := 1 - score_a
  let s1 := modifyPlayer s w (fun p =>
    { p with
      glicko_rating := round (glicko2_unscale (glicko_mu_new phi_a sigma_a mu_a mu_b phi_b (score_a : ℝ)))
      glicko_deviation := round1 (glicko_phi_new phi_a sigma_a mu_a mu_b phi_b (score_a : ℝ) * 173.7178)
      glicko_volatility := round4 (glicko_sigma_new sigma_a mu_a mu_b phi_b (score_a : ℝ)) })
  modifyPlayer s1 b (fun p =>
    { p with
      glicko_rating := round (glicko2_unscale (glicko_mu_new phi_b sigma_b mu_b mu_a phi_a (score_b : ℝ)))
      glicko_deviation := round1 (glicko_phi_new phi_b sigma_b mu_b mu_a phi_a (score_b : ℝ) * 173.7178)
      glicko_volatility := round4 (glicko_sigma_new sigma_b mu_b mu_a phi_a (score_b : ℝ)) })

/-! ## Bookkeeping steps of `process_game` (source lines 99-131, 280-392) -/

/-- `update_rating_extremes` (source lines 113-131); the six conditional
assignments touch disjoint fields, so they are one record update. -/
def update_rating_extremes (p : Player) : Player :=
  { p with
    highest_elo := if p.rating > p.highest_elo then p.rating else p.highest_elo
    lowest_elo := if p.rating < p.lowest_elo then p.rating else p.lowest_elo
    highest_glicko := if p.glicko_rating > p.highest_glicko then p.glicko_rating else p.highest_glicko
    lowest_glicko := if p.glicko_rating < p.lowest_glicko then p.glicko_rating else p.lowest_glicko
    highest_uscf := if p.uscf_rating > p.highest_uscf then p.uscf_rating else p.highest_uscf
    lowest_uscf := if p.uscf_rating < p.lowest_uscf then p.uscf_rating else p.lowest_uscf }

/-- Descending comparison on the rating gap; `list.sort(key=lambda x:
x['rating_diff'], reverse=True)` is a stable descending sort, which is
extensionally `mergeSort` with this comparison. -/
def descByDiff (x y : BigRecord) : Bool := decide (y.rating_diff ≤ x.rating_diff)

/-- Append, stable-sort descending by rating gap, keep the first 5
(source lines 101-104 and 108-111). -/
def sortTrunc (l : List BigRecord) : List BigRecord :=
  (l.mergeSort descByDiff).take 5

/-- `update_biggest_wins` (source lines 99-104). -/
def update_biggest_wins (p : Player) (win_record : BigRecord) : Player :=
  { p with biggest_wins := sortTrunc (p.biggest_wins ++ [win_record]) }

/-- `update_biggest_upsets` (source lines 106-111). -/
def update_biggest_upsets (p : Player) (upset_record : BigRecord) : Player :=
  { p with biggest_upsets := sortTrunc (p.biggest_upsets ++ [upset_record]) }

/-- The biggest-win / biggest-upset bookkeeping (source lines 279-333).
`wrb`/`brb` are the pre-game ELO ratings snapshotted at lines 258-259. -/
def recordsStep (s : RatingState) (w b : Str) (ws bs : ℚ) (wrb brb : ℤ)
    (game_number : ℕ) (date_str : Option Str) : RatingState :=
  let rating_diff := |wrb - brb|
  if ws = 1 then
    let s1 :=
      if brb > wrb then
        modifyPlayer s w (fun p => update_biggest_wins p
          { opponent := b, rating_diff := rating_diff, own_rating := wrb,
            opponent_rating := brb, game_number := game_number,
            date := date_str.bind format_date, result := str "Win" })
      else s
    if brb > wrb then
      modifyPlayer s1 b (fun p => update_biggest_upsets p
        { opponent := w, rating_diff := rating_diff, own_rating := brb,
          opponent_rating := wrb, game_number := game_number,
          date := date_str.bind format_date, result := str "Loss" })
    else s1
  else if bs = 1 then
    let s1 :=
      if wrb > brb then
        modifyPlayer s b (fun p => update_biggest_wins p
          { opponent := w, rating_diff := rating_diff, own_rating := brb,
            opponent_rating := wrb, game_number := game_number,
            date := date_str.bind format_date, result := str "Win" })
      else s
    if wrb > brb then
      modifyPlayer s1 w (fun p => update_biggest_upsets p
        { opponent := b, rating_diff := rating_diff, own_rating := wrb,
          opponent_rating := brb, game_number := game_number,
          date := date_str.bind format_date, result := str "Loss" })
    else s1
  else s

/-- Game-count increments (source lines 335-337). -/
def countStep (s : RatingState) (w b : Str) : RatingState :=
  modifyPlayer (modifyPlayer s w (fun p => { p with games := p.games + 1 }))
    b (fun p => { p with games := p.games + 1 })

/-- Win/draw/loss classification (source lines 339-348). -/
def wdlStep (s : RatingState) (w b : Str) (ws bs : ℚ) : RatingState :=
  if ws = 1 then
    modifyPlayer (modifyPlayer s w (fun p => { p with wins := p.wins + 1 }))
      b (fun p => { p with losses := p.losses + 1 })
  else if bs = 1 then
    modifyPlayer (modifyPlayer s b (fun p => { p with wins := p.wins + 1 }))
      w (fun p => { p with losses := p.losses + 1 })
  else
    modifyPlayer (modifyPlayer s w (fun p => { p with draws := p.draws + 1 }))
      b (fun p => { p with draws := p.draws + 1 })

/-- Create a zeroed head-to-head entry on first encounter
(source lines 351-354). -/
def ensureOpp (p : Player) (o : Str) : Player :=
  match alLookup p.opponents o with
  | some _ => p
  | none => { p with opponents := p.opponents ++ [(o, H2HRecord.mk 0 0 0 0)] }

/-- In-place mutation of one head-to-head entry. -/
def modifyOpp (p : Player) (o : Str) (f : H2HRecord → H2HRecord) : Player :=
  match alLookup p.opponents o with
  | none => p
  | some r => { p with opponents := alSet p.opponents o (f r) }

/-- Head-to-head bookkeeping (source lines 350-367), in source statement
order: ensure both nested entries, increment both `games` tallies, then
the outcome-specific counters. -/
def h2hStep (s : RatingState) (w b : Str) (ws bs : ℚ) : RatingState :=
  let s1 := modifyPlayer s w (fun p => ensureOpp p b)
  let s2 := modifyPlayer s1 b (fun p => ensureOpp p w)
  let s3 := modifyPlayer s2 w (fun p => modifyOpp p b (fun r => { r with games := r.games + 1 }))
  let s4 := modifyPlayer s3 b (fun p => modifyOpp p w (fun r => { r with games := r.games + 1 }))
  if ws = 1 then
    modifyPlayer
      (modifyPlayer s4 w (fun p => modifyOpp p b (fun r => { r with wins := r.wins + 1 })))
      b (fun p => modifyOpp p w (fun r => { r with losses := r.losses + 1 }))
  else if bs = 1 then
    modifyPlayer
      (modifyPlayer s4 w (fun p => modifyOpp p b (fun r => { r with losses := r.losses + 1 })))
      b (fun p => modifyOpp p w (fun r => { r with wins := r.wins + 1 }))
  else
    modifyPlayer
      (modifyPlayer s4 w (fun p => modifyOpp p b (fun r => { r with draws := r.draws + 1 })))
      b (fun p => modifyOpp p w (fun r => { r with draws := r.draws + 1 }))

/-- Rating-history bookkeeping (source lines 369-392): lazily create the
`rating_history` key for both players, then append a snapshot of each
player's own current (post-update) ratings. -/
noncomputable def historyStep (s : RatingState) (w b : Str) (game_number : ℕ)
    (date_str : Option Str) : RatingState :=
  let s1 := modifyPlayer s w (fun p =>
    if p.rating_history.isSome then p else { p with rating_history := some [] })
  let s2 := modifyPlayer s1 b (fun p =>
    if p.rating_history.isSome then p else { p with rating_history := some [] })
  let game_date : Option Str :=
    match date_str with
    | some d => format_date d
    | none => some (str "Game " ++ Nat.toDigits 10 game_number)
  let s3 := modifyPlayer s2 w (fun p =>
    { p with rating_history := some ((p.rating_history.getD []) ++
        [{ game := game_number, date := game_date, elo := p.rating,
           glicko2 := p.glicko_rating, uscf := p.uscf_rating }]) })
  modifyPlayer s3 b (fun p =>
    { p with rating_history := some ((p.rating_history.getD []) ++
        [{ game := game_number, date := game_date, elo := p.rating,
           glicko2 := p.glicko_rating, uscf := p.uscf_rating }]) })

/-- The successful branch of `process_game` (source lines 248-411), in
source statement order. -/
noncomputable def okUpdate (s : RatingState) (w b : Str) (ws bs : ℚ)
    (result : Str) (date_str : Option Str) (game_number : ℕ) : RatingState :=
  let s0 := init_player (init_player s w) b
  let wrb := (getP s0 w).rating
  let brb := (getP s0 b).rating
  let wc := calculate_elo_change wrb brb ws
  let bc := calculate_elo_change brb wrb bs
  let s1 := modifyPlayer s0 w (fun p => { p with rating := p.rating + wc })
  let s2 := modifyPlayer s1 b (fun p => { p with rating := p.rating + bc })
  let s3 := glickoStep s2 w b ws
  let s4 := uscfStep s3 w b ws
  let s5 := modifyPlayer s4 w update_rating_extremes
  let s6 := modifyPlayer s5 b update_rating_extremes
  let s7 := recordsStep s6 w b ws bs wrb brb game_number date_str
  let s8 := countStep s7 w b
  let s9 := wdlStep s8 w b ws bs
  let s10 := h2hStep s9 w b ws bs
  let s11 := historyStep s10 w b game_number date_str
  let record : GameRecord :=
    { game_number := game_number, white_player := w, black_player := b,
      result := result, date := date_str.bind format_date, date_raw := date_str,
      white_rating_before := wrb, black_rating_before := brb,
      white_rating_after := (getP s11 w).rating,
      black_rating_after := (getP s11 b).rating,
      white_change := wc, black_change := bc }
  { s11 with games := s11.games ++ [record] }

/-- `process_game` (source lines 216-411).  A structurally unparsable
line changes nothing; a line whose result token is invalid still runs
the two `init_player` calls (source lines 248-250) before failing at
line 255; a fully parsed line runs the whole update. -/
noncomputable def processGame (s : RatingState) (line : Str) (game_number : ℕ) :
    RatingState :=
  match parseLine line with
  | ParseOutcome.structFail => s
  | ParseOutcome.resultFail w b => init_player (init_player s w) b
  | ParseOutcome.ok w b ws bs result date_str =>
    okUpdate s w b ws bs result date_str game_number

/-- `load_games_file`'s processing loop (source lines 419-420):
lines are processed in order with 1-based game numbers. -/
noncomputable def processFrom (s : RatingState) (i : ℕ) : List Str → RatingState
  | [] => s
  | line :: rest => processFrom (processGame s line i) (i + 1) rest

/-- Process a whole log from the initial state. -/
noncomputable def processAll (lines : List Str) : RatingState :=
  processFrom initState 1 lines

/-! ## State invariants named by the specification -/

/-- Every player's stored Glicko-2 volatility is at most 0.2. -/
def VolOk (s : RatingState) : Prop :=
  ∀ m p, findPlayer s m = some p → p.glicko_volatility ≤ 0.2

/-- Every player's game counter equals wins + draws + losses. -/
def CountsOk (s : RatingState) : Prop :=
  ∀ m p, findPlayer s m = some p → p.games = p.wins + p.draws + p.losses

/-- Every player's USCF game counter equals the overall game counter. -/
def GamesEqOk (s : RatingState) : Prop :=
  ∀ m p, findPlayer s m = some p → p.uscf_games = p.games

/-- Between the USCF update and the game-count update of one game, the
USCF counter of each participant is ahead of the game counter by their
number of occurrences among the two sides. -/
def GamesEqOff (s : RatingState) (w b : Str) : Prop :=
  ∀ m p, findPlayer s m = some p →
    p.uscf_games = p.games + ((if w = m then 1 else 0) + (if b = m then 1 else 0))

/-- Every player's biggest-win and biggest-upset lists have at most 5
entries and are sorted by non-increasing rating gap. -/
def TopFiveOk (s : RatingState) : Prop :=
  ∀ m p, findPlayer s m = some p →
    p.biggest_wins.length ≤ 5 ∧ p.biggest_upsets.length ≤ 5 ∧
    p.biggest_wins.Pairwise (fun x y => y.rating_diff ≤ x.rating_diff) ∧
    p.biggest_upsets.Pairwise (fun x y => y.rating_diff ≤ x.rating_diff)

/-- The symmetry relation between the two directions of one
head-to-head pairing: both absent, or both present with equal `games`,
mirrored `wins`/`losses`, and equal `draws`. -/
def H2HSym : Option H2HRecord → Option H2HRecord → Prop
  | none, none => True
  | some r, some r2 =>
    r.games = r2.games ∧ r.wins = r2.losses ∧ r.losses = r2.wins ∧ r.draws = r2.draws
  | _, _ => False

/-- Head-to-head tallies are symmetric for every pair of players. -/
def H2HOk (s : RatingState) : Prop :=
  ∀ pn qn pp qp, findPlayer s pn = some pp → findPlayer s qn = some qp →
    H2HSym (alLookup pp.opponents qn) (alLookup qp.opponents pn)

/-- The outcome increment applied to the white side's head-to-head
entry (source lines 359-367). -/
def h2hIncWhite (ws bs : ℚ) (r : H2HRecord) : H2HRecord :=
  if ws = 1 then { r with wins := r.wins + 1 }
  else if bs = 1 then { r with losses := r.losses + 1 }
  else { r with draws := r.draws + 1 }

/-- The outcome increment applied to the black side's head-to-head
entry (source lines 359-367). -/
def h2hIncBlack (ws bs : ℚ) (r : H2HRecord) : H2HRecord :=
  if ws = 1 then { r with losses := r.losses + 1 }
  else if bs = 1 then { r with wins := r.wins + 1 }
  else { r with draws := r.draws + 1 }

/-- Every key of any player's opponents map is itself a registered
player (auxiliary invariant carried alongside `H2HOk`). -/
def OppReg (s : RatingState) : Prop :=
  ∀ m p, findPlayer s m = some p →
    ∀ o, (alLookup p.opponents o).isSome = true → (findPlayer s o).isSome = true

/-! ## Basic laws of the dict operations -/

theorem alLookup_alSet {α : Type} (l : List (Str × α)) (n : Str) (v : α) (m : Str) :
    alLookup (alSet l n v) m = if n = m then some v else alLookup l m := by
  induction l with
  | nil =>
    simp only [alSet, alLookup]
  | cons h t ih =>
    obtain ⟨k, w⟩ := h
    by_cases hkn : k = n
    · subst hkn
      simp only [alSet, if_pos rfl, alLookup]
      by_cases hkm : k = m <;> simp [hkm]
    · simp only [alSet, if_neg hkn, alLookup, ih]
      by_cases hkm : k = m <;> by_cases hnm : n = m <;> simp_all

theorem alLookup_append_single {α : Type} (l : List (Str × α)) (n : Str) (v : α) (m : Str) :
    alLookup (l ++ [(n, v)]) m =
      ((alLookup l m).orElse (fun _ => if n = m then some v else none)) := by
  induction l with
  | nil => simp [alLookup]
  | cons h t ih =>
    obtain ⟨k, w⟩ := h
    by_cases hkm : k = m <;> simp [alLookup, hkm, ih]

theorem findPlayer_modifyPlayer (s : RatingState) (n : Str) (f : Player → Player) (m : Str) :
    findPlayer (modifyPlayer s n f) m =
      if n = m then (findPlayer s m).map f else findPlayer s m := by
  unfold modifyPlayer findPlayer
  cases h : alLookup s.players n with
  | none =>
    by_cases hnm : n = m
    · subst hnm; simp [h]
    · simp [hnm]
  | some p =>
    simp only [alLookup_alSet]
    by_cases hnm : n = m
    · subst hnm; simp [h]
    · simp [hnm]

theorem findPlayer_init_player (s : RatingState) (n m : Str) :
    findPlayer (init_player s n) m =
      if n = m then some (getP s n) else findPlayer s m := by
  unfold init_player getP findPlayer
  cases h : alLookup s.players n with
  | some p =>
    by_cases hnm : n = m
    · subst hnm; simp [h]
    · simp [hnm]
  | none =>
    simp only [alLookup_append_single]
    by_cases hnm : n = m
    · subst hnm; simp [h]
    · cases hm : alLookup s.players m <;> simp [hm, hnm, h]

theorem games_modifyPlayer (s : RatingState) (n : Str) (f : Player → Player) :
    (modifyPlayer s n f).games = s.games := by
  unfold modifyPlayer; cases alLookup s.players n <;> rfl

theorem games_init_player (s : RatingState) (n : Str) :
    (init_player s n).games = s.games := by
  unfold init_player; cases alLookup s.players n <;> rfl

/-- A mutation that does not change the value of the view `v` of a
player does not change the view of any lookup. -/
theorem map_find_modify {α : Type} (v : Player → α) (f : Player → Player)
    (hf : ∀ p, v (f p) = v p) (s : RatingState) (n m : Str) :
    (findPlayer (modifyPlayer s n f) m).map v = (findPlayer s m).map v := by
  rw [findPlayer_modifyPlayer]
  split
  · cases findPlayer s m <;> simp [hf]
  · rfl

/-! ## View preservation through the composite steps -/

theorem map_find_glickoStep {α : Type} (v : Player → α)
    (hv : ∀ p x y z,
      v { p with glicko_rating := x, glicko_deviation := y, glicko_volatility := z } = v p)
    (s : RatingState) (w b : Str) (sc : ℚ) (m : Str) :
    (findPlayer (glickoStep s w b sc) m).map v = (findPlayer s m).map v := by
  simp only [glickoStep]
  rw [map_find_modify v _ (fun p => hv p _ _ _), map_find_modify v _ (fun p => hv p _ _ _)]

theorem map_find_uscfStep {α : Type} (v : Player → α)
    (hv1 : ∀ p x, v { p with uscf_rating := x } = v p)
    (hv2 : ∀ p x, v { p with uscf_games := x } = v p)
    (s : RatingState) (w b : Str) (sc : ℚ) (m : Str) :
    (findPlayer (uscfStep s w b sc) m).map v = (findPlayer s m).map v := by
  simp only [uscfStep]
  rw [map_find_modify v _ (fun p => hv2 p _), map_find_modify v _ (fun p => hv2 p _),
    map_find_modify v _ (fun p => hv1 p _), map_find_modify v _ (fun p => hv1 p _)]

theorem map_find_extremes {α : Type} (v : Player → α)
    (hv : ∀ p a c d e f g,
      v { p with highest_elo := a, lowest_elo := c, highest_glicko := d,
                 lowest_glicko := e, highest_uscf := f, lowest_uscf := g } = v p)
    (s : RatingState) (n m : Str) :
    (findPlayer (modifyPlayer s n update_rating_extremes) m).map v = (findPlayer s m).map v :=
  map_find_modify v _ (fun p => hv p _ _ _ _ _ _) s n m

theorem map_find_recordsStep {α : Type} (v : Player → α)
    (hvw : ∀ p l, v { p with biggest_wins := l } = v p)
    (hvu : ∀ p l, v { p with biggest_upsets := l } = v p)
    (s : RatingState) (w b : Str) (ws bs : ℚ) (wrb brb : ℤ) (n : ℕ)
    (d : Option Str) (m : Str) :
    (findPlayer (recordsStep s w b ws bs wrb brb n d) m).map v = (findPlayer s m).map v := by
  simp only [recordsStep, update_biggest_wins, update_biggest_upsets]
  split_ifs <;>
    first
      | rfl
      | rw [map_find_modify v _ (fun p => hvu p _), map_find_modify v _ (fun p => hvw p _)]

theorem map_find_countStep {α : Type} (v : Player → α)
    (hv : ∀ p x, v { p with games := x } = v p)
    (s : RatingState) (w b : Str) (m : Str) :
    (findPlayer (countStep s w b) m).map v = (findPlayer s m).map v := by
  simp only [countStep]
  rw [map_find_modify v _ (fun p => hv p _), map_find_modify v _ (fun p => hv p _)]

theorem map_find_wdlStep {α : Type} (v : Player → α)
    (hvw : ∀ p x, v { p with wins := x } = v p)
    (hvl : ∀ p x, v { p with losses := x } = v p)
    (hvd : ∀ p x, v { p with draws := x } = v p)
    (s : RatingState) (w b : Str) (ws bs : ℚ) (m : Str) :
    (findPlayer (wdlStep s w b ws bs) m).map v = (findPlayer s m).map v := by
  simp only [wdlStep]
  split_ifs <;>
    first
      | rw [map_find_modify v _ (fun p => hvl p _), map_find_modify v _ (fun p => hvw p _)]
      | rw [map_find_modify v _ (fun p => hvd p _), map_find_modify v _ (fun p => hvd p _)]

theorem map_find_h2hStep {α : Type} (v : Player → α)
    (hv : ∀ p l, v { p with opponents := l } = v p)
    (s : RatingState) (w b : Str) (ws bs : ℚ) (m : Str) :
    (findPlayer (h2hStep s w b ws bs) m).map v = (findPlayer s m).map v := by
  have hens : ∀ p o, v (ensureOpp p o) = v p := by
    intro p o; unfold ensureOpp; cases alLookup p.opponents o <;> simp [hv]
  have hmod : ∀ p o f, v (modifyOpp p o f) = v p := by
    intro p o f; unfold modifyOpp; cases alLookup p.opponents o <;> simp [hv]
  simp only [h2hStep]
  split_ifs <;>
    rw [map_find_modify v _ (fun p => hmod p _ _), map_find_modify v _ (fun p => hmod p _ _),
      map_find_modify v _ (fun p => hmod p _ _), map_find_modify v _ (fun p => hmod p _ _),
      map_find_modify v _ (fun p => hens p _), map_find_modify v _ (fun p => hens p _)]

theorem findPlayer_setGames (s : RatingState) (g : List GameRecord) (m : Str) :
    findPlayer { s with games := g } m = findPlayer s m := rfl

theorem findPlayer_init_of_found (s : RatingState) (n m : Str) (p : Player)
    (h : findPlayer s m = some p) : findPlayer (init_player s n) m = some p := by
  rw [findPlayer_init_player]
  split
  · next hnm => subst hnm; simp [getP, h]
  · exact h

theorem findPlayer_init_cases (s : RatingState) (n m : Str) (p : Player)
    (h : findPlayer (init_player s n) m = some p) :
    findPlayer s m = some p ∨
      (p = defaultPlayer m ∧ m = n ∧ findPlayer s m = none) := by
  rw [findPlayer_init_player] at h
  split at h
  · next hnm =>
    subst hnm
    cases hq : findPlayer s n with
    | none => right; simp [getP, hq] at h; exact ⟨h.symm, rfl, rfl⟩
    | some q => left; simp [getP, hq] at h; exact congrArg some h
  · left; exact h

theorem map_find_historyStep {α : Type} (v : Player → α)
    (hv : ∀ p x, v { p with rating_history := x } = v p)
    (s : RatingState) (w b : Str) (n : ℕ) (d : Option Str) (m : Str) :
    (findPlayer (historyStep s w b n d) m).map v = (findPlayer s m).map v := by
  have hinit : ∀ p : Player,
      v (if p.rating_history.isSome then p else { p with rating_history := some [] }) = v p := by
    intro p; split
    · rfl
    · exact hv p _
  simp only [historyStep]
  rw [map_find_modify v _ (fun p => hv p _), map_find_modify v _ (fun p => hv p _),
    map_find_modify v _ hinit, map_find_modify v _ hinit]

/-! ## Arithmetic facts about the ELO update -/

/-- The two expected scores of one game add to 1. -/
theorem expected_score_symm (ra rb : ℤ) :
    expected_score ra rb + expected_score rb ra = 1 := by
  unfold expected_score
  have h10 : (0 : ℝ) < 10 := by norm_num
  have hxx : ((ra : ℝ) - (rb : ℝ)) / 400 = -(((rb : ℝ) - (ra : ℝ)) / 400) := by ring
  rw [hxx, Real.rpow_neg (le_of_lt h10)]
  have ht : (0 : ℝ) < (10 : ℝ) ^ (((rb : ℝ) - (ra : ℝ)) / 400) :=
    Real.rpow_pos_of_pos h10 _
  have h1 : (1 : ℝ) + (10 : ℝ) ^ (((rb : ℝ) - (ra : ℝ)) / 400) ≠ 0 := by positivity
  field_simp
  ring

/-- With equal ratings the expected score is exactly 1/2. -/
theorem expected_score_self (r : ℤ) : expected_score r r = 1 / 2 := by
  unfold expected_score
  rw [sub_self, zero_div, Real.rpow_zero]
  norm_num

/-- The black-side argument of `round` is the negation of the white-side
argument. -/
theorem elo_args_neg (ra rb : ℤ) (s : ℚ) :
    (32 : ℝ) * (((1 - s : ℚ) : ℝ) - expected_score rb ra) =
      -((32 : ℝ) * ((s : ℝ) - expected_score ra rb)) := by
  have hE : expected_score rb ra = 1 - expected_score ra rb := by
    linarith [expected_score_symm ra rb]
  rw [hE]
  push_cast
  ring

/-- Rounding `x` and `-x` gives a sum in `{0, 1}`; in particular the
absolute value of the sum is at most 1. -/
theorem round_add_round_neg_bound (x : ℝ) : |round x + round (-x)| ≤ 1 := by
  have h1 : (round x : ℝ) ≤ x + 1 / 2 := round_le_add_half x
  have h2 : x - 1 / 2 < (round x : ℝ) := sub_half_lt_round x
  have h3 : (round (-x) : ℝ) ≤ -x + 1 / 2 := round_le_add_half (-x)
  have h4 : -x - 1 / 2 < (round (-x) : ℝ) := sub_half_lt_round (-x)
  rw [abs_le]
  constructor
  · have h0 : (-1 : ℝ) < ((round x + round (-x) : ℤ) : ℝ) := by push_cast; linarith
    have h5 : (-1 : ℤ) < round x + round (-x) := by exact_mod_cast h0
    omega
  · have h0 : ((round x + round (-x) : ℤ) : ℝ) ≤ 1 := by push_cast; linarith
    exact_mod_cast h0

/-- C6: for a game between two players, with any legal score
(`0`, `1/2` or `1`), the sum of the white ELO delta
`calculate_elo_change ra rb s` and the black ELO delta
`calculate_elo_change rb ra (1-s)` (exactly the two calls made by
`process_game`, source lines 262-263) is within ±1 of 0, and is exactly
0 when the two pre-game ratings are equal; applied to two previously
unseen players both ratings are the initial 1200, so the sum is 0. -/
theorem C6_elo_zero_sum (ra rb : ℤ) (s : ℚ) (hs : s = 0 ∨ s = 1 / 2 ∨ s = 1) :
    |calculate_elo_change ra rb s + calculate_elo_change rb ra (1 - s)| ≤ 1 ∧
    (ra = rb → calculate_elo_change ra rb s + calculate_elo_change rb ra (1 - s) = 0) := by
  constructor
  · unfold calculate_elo_change
    rw [elo_args_neg]
    exact round_add_round_neg_bound _
  · intro hab
    subst hab
    unfold calculate_elo_change
    rw [expected_score_self]
    rcases hs with h | h | h <;> subst h
    · rw [show (32 : ℝ) * (((0 : ℚ) : ℝ) - 1 / 2) = ((-16 : ℤ) : ℝ) by norm_num,
        show (32 : ℝ) * (((1 - 0 : ℚ) : ℝ) - 1 / 2) = ((16 : ℤ) : ℝ) by norm_num,
        round_intCast, round_intCast]
      norm_num
    · rw [show (32 : ℝ) * (((1 / 2 : ℚ) : ℝ) - 1 / 2) = ((0 : ℤ) : ℝ) by norm_num,
        show (32 : ℝ) * (((1 - 1 / 2 : ℚ) : ℝ) - 1 / 2) = ((0 : ℤ) : ℝ) by norm_num]
      norm_num [round_intCast]
    · rw [show (32 : ℝ) * (((1 : ℚ) : ℝ) - 1 / 2) = ((16 : ℤ) : ℝ) by norm_num,
        show (32 : ℝ) * (((1 - 1 : ℚ) : ℝ) - 1 / 2) = ((-16 : ℤ) : ℝ) by norm_num,
        round_intCast, round_intCast]
      norm_num

/-- Witness for C6: two fresh players at the initial rating 1200,
white wins. -/
theorem C6_elo_zero_sum_witness :
    |calculate_elo_change 1200 1200 1 + calculate_elo_change 1200 1200 (1 - 1)| ≤ 1 ∧
    calculate_elo_change 1200 1200 1 + calculate_elo_change 1200 1200 (1 - 1) = 0 := by
  have h := C6_elo_zero_sum 1200 1200 1 (by norm_num)
  exact ⟨h.1, h.2 rfl⟩

/-- C2: for a successfully parsed game between two distinct players,
the ELO delta of each side is `round(32 * (score - expected))` with the
expected score `1 / (1 + 10 ^ ((ratingB - ratingA) / 400))`, both deltas
are computed from the two pre-game ratings (`pw.rating`, `pb.rating`,
the ratings right after initialisation and before any update), and each
player's post-game rating is exactly their pre-game rating plus their
own delta. -/
theorem C2_elo_simultaneous_update (s : RatingState) (line : Str) (n : ℕ)
    (w b : Str) (ws bs : ℚ) (result : Str) (d : Option Str)
    (hp : parseLine line = ParseOutcome.ok w b ws bs result d)
    (hwb : w ≠ b) (pw pb : Player)
    (hw : findPlayer (init_player (init_player s w) b) w = some pw)
    (hb : findPlayer (init_player (init_player s w) b) b = some pb) :
    calculate_elo_change pw.rating pb.rating ws =
      round ((32 : ℝ) * ((ws : ℝ) -
        1 / (1 + (10 : ℝ) ^ (((pb.rating : ℝ) - (pw.rating : ℝ)) / 400)))) ∧
    (findPlayer (processGame s line n) w).map (fun p => p.rating) =
      some (pw.rating + calculate_elo_change pw.rating pb.rating ws) ∧
    (findPlayer (processGame s line n) b).map (fun p => p.rating) =
      some (pb.rating + calculate_elo_change pb.rating pw.rating bs) := by
  refine ⟨rfl, ?_, ?_⟩
  · simp only [processGame, hp, okUpdate]
    rw [findPlayer_setGames,
      map_find_historyStep (fun p => p.rating) (fun p x => rfl),
      map_find_h2hStep (fun p => p.rating) (fun p l => rfl),
      map_find_wdlStep (fun p => p.rating) (fun p x => rfl) (fun p x => rfl) (fun p x => rfl),
      map_find_countStep (fun p => p.rating) (fun p x => rfl),
      map_find_recordsStep (fun p => p.rating) (fun p l => rfl) (fun p l => rfl),
      map_find_extremes (fun p => p.rating) (fun p a c d e f g => rfl),
      map_find_extremes (fun p => p.rating) (fun p a c d e f g => rfl),
      map_find_uscfStep (fun p => p.rating) (fun p x => rfl) (fun p x => rfl),
      map_find_glickoStep (fun p => p.rating) (fun p x y z => rfl),
      findPlayer_modifyPlayer, findPlayer_modifyPlayer,
      if_neg (fun h => hwb h.symm), if_pos rfl, hw]
    simp [getP, hw, hb]
  · simp only [processGame, hp, okUpdate]
    rw [findPlayer_setGames,
      map_find_historyStep (fun p => p.rating) (fun p x => rfl),
      map_find_h2hStep (fun p => p.rating) (fun p l => rfl),
      map_find_wdlStep (fun p => p.rating) (fun p x => rfl) (fun p x => rfl) (fun p x => rfl),
      map_find_countStep (fun p => p.rating) (fun p x => rfl),
      map_find_recordsStep (fun p => p.rating) (fun p l => rfl) (fun p l => rfl),
      map_find_extremes (fun p => p.rating) (fun p a c d e f g => rfl),
      map_find_extremes (fun p => p.rating) (fun p a c d e f g => rfl),
      map_find_uscfStep (fun p => p.rating) (fun p x => rfl) (fun p x => rfl),
      map_find_glickoStep (fun p => p.rating) (fun p x y z => rfl),
      findPlayer_modifyPlayer, findPlayer_modifyPlayer,
      if_pos rfl, if_neg hwb, hb]
    simp [getP, hw, hb]

/-- Witness for C2: processing `"A - B 1:0"` from the empty state. -/
theorem C2_elo_simultaneous_update_witness :
    (findPlayer (processGame initState (str "A - B 1:0") 1) (str "A")).map
      (fun p => p.rating) =
      some ((defaultPlayer (str "A")).rating +
        calculate_elo_change (defaultPlayer (str "A")).rating
          (defaultPlayer (str "B")).rating 1) :=
  (C2_elo_simultaneous_update initState (str "A - B 1:0") 1 (str "A") (str "B")
    1 0 (str "1:0") none rfl (by decide) _ _ rfl rfl).2.1

/-- The two ELO rating assignments (source lines 266-267) preserve any
view that ignores `rating`. -/
theorem map_find_eloMods {α : Type} (v : Player → α)
    (hv : ∀ p x, v { p with rating := x } = v p)
    (s : RatingState) (w b : Str) (wc bc : ℤ) (m : Str) :
    (findPlayer
      (modifyPlayer (modifyPlayer s w (fun p => { p with rating := p.rating + wc }))
        b (fun p => { p with rating := p.rating + bc })) m).map v =
      (findPlayer s m).map v := by
  rw [map_find_modify v _ (fun p => hv p _), map_find_modify v _ (fun p => hv p _)]

/-- `get_uscf_k_factor` only reads the USCF game count and rating. -/
theorem get_uscf_k_factor_congr (p q : Player)
    (h1 : p.uscf_games = q.uscf_games) (h2 : p.uscf_rating = q.uscf_rating) :
    get_uscf_k_factor p = get_uscf_k_factor q := by
  unfold get_uscf_k_factor
  rw [h1, h2]

/-- Exact effect of `update_uscf_ratings` on both players' USCF fields,
for distinct names, given the pre-state USCF views. -/
theorem map_find_uscfStep_self (s : RatingState) (w b : Str) (sc : ℚ) (hwb : w ≠ b)
    (pw pb : Player)
    (hw : (findPlayer s w).map (fun p => (p.uscf_rating, p.uscf_games)) =
      some (pw.uscf_rating, pw.uscf_games))
    (hb : (findPlayer s b).map (fun p => (p.uscf_rating, p.uscf_games)) =
      some (pb.uscf_rating, pb.uscf_games)) :
    (findPlayer (uscfStep s w b sc) w).map (fun p => (p.uscf_rating, p.uscf_games)) =
      some (pw.uscf_rating +
        calculate_uscf_change pw.uscf_rating pb.uscf_rating sc (get_uscf_k_factor pw),
        pw.uscf_games + 1) ∧
    (findPlayer (uscfStep s w b sc) b).map (fun p => (p.uscf_rating, p.uscf_games)) =
      some (pb.uscf_rating +
        calculate_uscf_change pb.uscf_rating pw.uscf_rating (1 - sc) (get_uscf_k_factor pb),
        pb.uscf_games + 1) := by
  obtain ⟨qw, hqw, hqw1, hqw2⟩ : ∃ qw, findPlayer s w = some qw ∧
      qw.uscf_rating = pw.uscf_rating ∧ qw.uscf_games = pw.uscf_games := by
    cases hq : findPlayer s w with
    | none => rw [hq] at hw; simp at hw
    | some q =>
      rw [hq] at hw; simp at hw
      exact ⟨q, rfl, hw.1, hw.2⟩
  obtain ⟨qb, hqb, hqb1, hqb2⟩ : ∃ qb, findPlayer s b = some qb ∧
      qb.uscf_rating = pb.uscf_rating ∧ qb.uscf_games = pb.uscf_games := by
    cases hq : findPlayer s b with
    | none => rw [hq] at hb; simp at hb
    | some q =>
      rw [hq] at hb; simp at hb
      exact ⟨q, rfl, hb.1, hb.2⟩
  have hkw : get_uscf_k_factor qw = get_uscf_k_factor pw :=
    get_uscf_k_factor_congr qw pw hqw2 hqw1
  have hkb : get_uscf_k_factor qb = get_uscf_k_factor pb :=
    get_uscf_k_factor_congr qb pb hqb2 hqb1
  have hgw : getP s w = qw := by simp [getP, hqw]
  have hgb : getP s b = qb := by simp [getP, hqb]
  constructor
  · simp only [uscfStep, hgw, hgb]
    rw [findPlayer_modifyPlayer, findPlayer_modifyPlayer, findPlayer_modifyPlayer,
      findPlayer_modifyPlayer, if_neg (fun h => hwb h.symm), if_pos rfl,
      if_neg (fun h => hwb h.symm), if_pos rfl, hqw]
    simp [hkw, hqw1, hqw2, hqb1]
  · simp only [uscfStep, hgw, hgb]
    rw [findPlayer_modifyPlayer, findPlayer_modifyPlayer, findPlayer_modifyPlayer,
      findPlayer_modifyPlayer, if_pos rfl, if_neg hwb, if_pos rfl, if_neg hwb, hqb]
    simp [hkb, hqb1, hqb2, hqw1]

/-- C3: for a successfully parsed game between two distinct players,
each side's USCF K-factor is selected from that side's own pre-game
state (40 below 20 USCF games, else 32 below rating 2100, else 24 —
in particular 40 at exactly 19 games, and 32 at exactly 20 games with
rating below 2100), the USCF rating moves by
`round(K * (score - expected))` computed from the two pre-game USCF
ratings, and both players' USCF game counters increment by exactly 1. -/
theorem C3_uscf_update (s : RatingState) (line : Str) (n : ℕ)
    (w b : Str) (ws bs : ℚ) (result : Str) (d : Option Str)
    (hp : parseLine line = ParseOutcome.ok w b ws bs result d)
    (hwb : w ≠ b) (pw pb : Player)
    (hw : findPlayer (init_player (init_player s w) b) w = some pw)
    (hb : findPlayer (init_player (init_player s w) b) b = some pb) :
    (∀ p : Player, p.uscf_games = 19 → get_uscf_k_factor p = 40) ∧
    (∀ p : Player, p.uscf_games = 20 → p.uscf_rating < 2100 → get_uscf_k_factor p = 32) ∧
    (findPlayer (processGame s line n) w).map (fun p => (p.uscf_rating, p.uscf_games)) =
      some (pw.uscf_rating +
        calculate_uscf_change pw.uscf_rating pb.uscf_rating ws (get_uscf_k_factor pw),
        pw.uscf_games + 1) ∧
    (findPlayer (processGame s line n) b).map (fun p => (p.uscf_rating, p.uscf_games)) =
      some (pb.uscf_rating +
        calculate_uscf_change pb.uscf_rating pw.uscf_rating (1 - ws) (get_uscf_k_factor pb),
        pb.uscf_games + 1) := by
  refine ⟨?_, ?_, ?_, ?_⟩
  · intro p h; unfold get_uscf_k_factor; rw [h]; norm_num
  · intro p h1 h2; unfold get_uscf_k_factor; rw [h1]; simp [h2]
  · simp only [processGame, hp, okUpdate]
    rw [findPlayer_setGames,
      map_find_historyStep (fun p => (p.uscf_rating, p.uscf_games)) (fun p x => rfl),
      map_find_h2hStep (fun p => (p.uscf_rating, p.uscf_games)) (fun p l => rfl),
      map_find_wdlStep (fun p => (p.uscf_rating, p.uscf_games)) (fun p x => rfl)
        (fun p x => rfl) (fun p x => rfl),
      map_find_countStep (fun p => (p.uscf_rating, p.uscf_games)) (fun p x => rfl),
      map_find_recordsStep (fun p => (p.uscf_rating, p.uscf_games)) (fun p l => rfl)
        (fun p l => rfl),
      map_find_extremes (fun p => (p.uscf_rating, p.uscf_games)) (fun p a c d e f g => rfl),
      map_find_extremes (fun p => (p.uscf_rating, p.uscf_games)) (fun p a c d e f g => rfl)]
    refine (map_find_uscfStep_self _ w b ws hwb pw pb ?_ ?_).1
    · rw [map_find_glickoStep (fun p => (p.uscf_rating, p.uscf_games)) (fun p x y z => rfl),
        map_find_eloMods (fun p => (p.uscf_rating, p.uscf_games)) (fun p x => rfl), hw]
      rfl
    · rw [map_find_glickoStep (fun p => (p.uscf_rating, p.uscf_games)) (fun p x y z => rfl),
        map_find_eloMods (fun p => (p.uscf_rating, p.uscf_games)) (fun p x => rfl), hb]
      rfl
  · simp only [processGame, hp, okUpdate]
    rw [findPlayer_setGames,
      map_find_historyStep (fun p => (p.uscf_rating, p.uscf_games)) (fun p x => rfl),
      map_find_h2hStep (fun p => (p.uscf_rating, p.uscf_games)) (fun p l => rfl),
      map_find_wdlStep (fun p => (p.uscf_rating, p.uscf_games)) (fun p x => rfl)
        (fun p x => rfl) (fun p x => rfl),
      map_find_countStep (fun p => (p.uscf_rating, p.uscf_games)) (fun p x => rfl),
      map_find_recordsStep (fun p => (p.uscf_rating, p.uscf_games)) (fun p l => rfl)
        (fun p l => rfl),
      map_find_extremes (fun p => (p.uscf_rating, p.uscf_games)) (fun p a c d e f g => rfl),
      map_find_extremes (fun p => (p.uscf_rating, p.uscf_games)) (fun p a c d e f g => rfl)]
    refine (map_find_uscfStep_self _ w b ws hwb pw pb ?_ ?_).2
    · rw [map_find_glickoStep (fun p => (p.uscf_rating, p.uscf_games)) (fun p x y z => rfl),
        map_find_eloMods (fun p => (p.uscf_rating, p.uscf_games)) (fun p x => rfl), hw]
      rfl
    · rw [map_find_glickoStep (fun p => (p.uscf_rating, p.uscf_games)) (fun p x y z => rfl),
        map_find_eloMods (fun p => (p.uscf_rating, p.uscf_games)) (fun p x => rfl), hb]
      rfl

/-- Witness for C3: processing `"A - B 1:0"` from the empty state. -/
theorem C3_uscf_update_witness :
    (findPlayer (processGame initState (str "A - B 1:0") 1) (str "A")).map
      (fun p => (p.uscf_rating, p.uscf_games)) =
      some ((defaultPlayer (str "A")).uscf_rating +
        calculate_uscf_change (defaultPlayer (str "A")).uscf_rating
          (defaultPlayer (str "B")).uscf_rating 1
          (get_uscf_k_factor (defaultPlayer (str "A"))),
        (defaultPlayer (str "A")).uscf_games + 1) :=
  (C3_uscf_update initState (str "A - B 1:0") 1 (str "A") (str "B")
    1 0 (str "1:0") none rfl (by decide) _ _ rfl rfl).2.2.1

/-! ## The Glicko-2 volatility cap -/

/-- Rounding to four decimals cannot push a value at most 0.2 above 0.2. -/
theorem round4_le_of_le (x : ℝ) (h : x ≤ 0.2) : round4 x ≤ 0.2 := by
  unfold round4
  have h1 : round ((10000 : ℝ) * x) ≤ 2000 := by
    rw [round_eq]
    have h2 : (10000 : ℝ) * x + 1 / 2 ≤ ((2000 : ℤ) : ℝ) + 1 / 2 := by
      push_cast; linarith
    calc ⌊(10000 : ℝ) * x + 1 / 2⌋ ≤ ⌊((2000 : ℤ) : ℝ) + 1 / 2⌋ := Int.floor_le_floor h2
      _ = 2000 + ⌊(1 / 2 : ℝ)⌋ := Int.floor_int_add 2000 _
      _ = 2000 := by
          rw [Int.floor_eq_zero_iff.mpr (by norm_num)]
          norm_num
  have h3 : ((round ((10000 : ℝ) * x) : ℤ) : ℝ) ≤ 2000 := by exact_mod_cast h1
  linarith

/-- The simplified volatility update is capped at 0.2, so its stored
4-decimal rounding is also at most 0.2. -/
theorem vol_cap (sigma mu mu_j phi_j score : ℝ) :
    round4 (glicko_sigma_new sigma mu mu_j phi_j score) ≤ 0.2 :=
  round4_le_of_le _ (min_le_right _ _)

theorem volOk_setGames (s : RatingState) (g : List GameRecord) (h : VolOk s) :
    VolOk { s with games := g } :=
  fun m p hp => h m p hp

theorem volOk_modifyPlayer (s : RatingState) (n : Str) (f : Player → Player)
    (h : VolOk s)
    (hf : ∀ p, p.glicko_volatility ≤ 0.2 → (f p).glicko_volatility ≤ 0.2) :
    VolOk (modifyPlayer s n f) := by
  intro m p hp
  rw [findPlayer_modifyPlayer] at hp
  split at hp
  · cases hq : findPlayer s m with
    | none => rw [hq] at hp; simp at hp
    | some q =>
      rw [hq] at hp; simp at hp
      rw [← hp]; exact hf q (h m q hq)
  · exact h m p hp

theorem volOk_of_map_eq (s s' : RatingState)
    (h : ∀ m, (findPlayer s' m).map (fun p => p.glicko_volatility) =
      (findPlayer s m).map (fun p => p.glicko_volatility))
    (hs : VolOk s) : VolOk s' := by
  intro m p hp
  have hm := h m
  rw [hp] at hm
  cases hq : findPlayer s m with
  | none => rw [hq] at hm; simp at hm
  | some q =>
    rw [hq] at hm; simp at hm
    rw [hm]; exact hs m q hq

theorem volOk_init_player (s : RatingState) (n : Str) (h : VolOk s) :
    VolOk (init_player s n) := by
  intro m p hp
  rcases findPlayer_init_cases s n m p hp with h1 | ⟨h1, _⟩
  · exact h m p h1
  · rw [h1]
    show (0.06 : ℝ) ≤ 0.2
    norm_num

theorem volOk_glickoStep (s : RatingState) (w b : Str) (sc : ℚ) (h : VolOk s) :
    VolOk (glickoStep s w b sc) := by
  simp only [glickoStep]
  refine volOk_modifyPlayer _ _ _ (volOk_modifyPlayer _ _ _ h ?_) ?_ <;>
    exact fun p _ => vol_cap _ _ _ _ _

theorem volOk_processGame (s : RatingState) (line : Str) (n : ℕ) (h : VolOk s) :
    VolOk (processGame s line n) := by
  unfold processGame
  cases hp : parseLine line with
  | structFail => exact h
  | resultFail w b => exact volOk_init_player _ _ (volOk_init_player _ _ h)
  | ok w b ws bs result d =>
    simp only [okUpdate]
    apply volOk_setGames
    apply volOk_of_map_eq _ _
      (fun m => map_find_historyStep (fun p => p.glicko_volatility) (fun p x => rfl) _ _ _ _ _ _)
    apply volOk_of_map_eq _ _
      (fun m => map_find_h2hStep (fun p => p.glicko_volatility) (fun p l => rfl) _ _ _ _ _ _)
    apply volOk_of_map_eq _ _
      (fun m => map_find_wdlStep (fun p => p.glicko_volatility) (fun p x => rfl)
        (fun p x => rfl) (fun p x => rfl) _ _ _ _ _ _)
    apply volOk_of_map_eq _ _
      (fun m => map_find_countStep (fun p => p.glicko_volatility) (fun p x => rfl) _ _ _ _)
    apply volOk_of_map_eq _ _
      (fun m => map_find_recordsStep (fun p => p.glicko_volatility) (fun p l => rfl)
        (fun p l => rfl) _ _ _ _ _ _ _ _ _ _)
    apply volOk_of_map_eq _ _
      (fun m => map_find_extremes (fun p => p.glicko_volatility) (fun p a c d e f g => rfl) _ _ _)
    apply volOk_of_map_eq _ _
      (fun m => map_find_extremes (fun p => p.glicko_volatility) (fun p a c d e f g => rfl) _ _ _)
    apply volOk_of_map_eq _ _
      (fun m => map_find_uscfStep (fun p => p.glicko_volatility) (fun p x => rfl)
        (fun p x => rfl) _ _ _ _ _)
    apply volOk_glickoStep
    apply volOk_of_map_eq _ _
      (fun m => map_find_eloMods (fun p => p.glicko_volatility) (fun p x => rfl) _ _ _ _ _ _)
    exact volOk_init_player _ _ (volOk_init_player _ _ h)

theorem volOk_processFrom (lines : List Str) :
    ∀ (s : RatingState) (i : ℕ), VolOk s → VolOk (processFrom s i lines) := by
  induction lines with
  | nil => exact fun s i h => h
  | cons l t ih => exact fun s i h => ih _ _ (volOk_processGame _ _ _ h)

/-- Exact effect of `update_glicko2_ratings` on the white player's
stored volatility, for distinct names, given the pre-state Glicko
views. -/
theorem map_find_glickoStep_self (s : RatingState) (w b : Str) (sc : ℚ) (hwb : w ≠ b)
    (pw pb : Player)
    (hw : (findPlayer s w).map
        (fun p => (p.glicko_rating, p.glicko_deviation, p.glicko_volatility)) =
      some (pw.glicko_rating, pw.glicko_deviation, pw.glicko_volatility))
    (hb : (findPlayer s b).map
        (fun p => (p.glicko_rating, p.glicko_deviation, p.glicko_volatility)) =
      some (pb.glicko_rating, pb.glicko_deviation, pb.glicko_volatility)) :
    (findPlayer (glickoStep s w b sc) w).map (fun p => p.glicko_volatility) =
      some (round4 (glicko_sigma_new pw.glicko_volatility
        (glicko2_scale (pw.glicko_rating : ℝ)) (glicko2_scale (pb.glicko_rating : ℝ))
        (pb.glicko_deviation / 173.7178) (sc : ℝ))) := by
  obtain ⟨qw, hqw, hqw1, hqw2, hqw3⟩ : ∃ qw, findPlayer s w = some qw ∧
      qw.glicko_rating = pw.glicko_rating ∧ qw.glicko_deviation = pw.glicko_deviation ∧
      qw.glicko_volatility = pw.glicko_volatility := by
    cases hq : findPlayer s w with
    | none => rw [hq] at hw; simp at hw
    | some q =>
      rw [hq] at hw; simp at hw
      exact ⟨q, rfl, hw.1, hw.2.1, hw.2.2⟩
  obtain ⟨qb, hqb, hqb1, hqb2, hqb3⟩ : ∃ qb, findPlayer s b = some qb ∧
      qb.glicko_rating = pb.glicko_rating ∧ qb.glicko_deviation = pb.glicko_deviation ∧
      qb.glicko_volatility = pb.glicko_volatility := by
    cases hq : findPlayer s b with
    | none => rw [hq] at hb; simp at hb
    | some q =>
      rw [hq] at hb; simp at hb
      exact ⟨q, rfl, hb.1, hb.2.1, hb.2.2⟩
  have hgw : getP s w = qw := by simp [getP, hqw]
  have hgb : getP s b = qb := by simp [getP, hqb]
  simp only [glickoStep, hgw, hgb]
  rw [findPlayer_modifyPlayer, findPlayer_modifyPlayer,
    if_neg (fun h => hwb h.symm), if_pos rfl, hqw]
  simp [hqw1, hqw2, hqw3, hqb1, hqb2, hqb3]

/-- Exact effect of `update_glicko2_ratings` on the black player's
stored volatility, for distinct names, given the pre-state Glicko
views; black's score is `1 - score_a` (source line 148). -/
theorem map_find_glickoStep_self_b (s : RatingState) (w b : Str) (sc : ℚ) (hwb : w ≠ b)
    (pw pb : Player)
    (hw : (findPlayer s w).map
        (fun p => (p.glicko_rating, p.glicko_deviation, p.glicko_volatility)) =
      some (pw.glicko_rating, pw.glicko_deviation, pw.glicko_volatility))
    (hb : (findPlayer s b).map
        (fun p => (p.glicko_rating, p.glicko_deviation, p.glicko_volatility)) =
      some (pb.glicko_rating, pb.glicko_deviation, pb.glicko_volatility)) :
    (findPlayer (glickoStep s w b sc) b).map (fun p => p.glicko_volatility) =
      some (round4 (glicko_sigma_new pb.glicko_volatility
        (glicko2_scale (pb.glicko_rating : ℝ)) (glicko2_scale (pw.glicko_rating : ℝ))
        (pw.glicko_deviation / 173.7178) ((1 - sc : ℚ) : ℝ))) := by
  obtain ⟨qw, hqw, hqw1, hqw2, hqw3⟩ : ∃ qw, findPlayer s w = some qw ∧
      qw.glicko_rating = pw.glicko_rating ∧ qw.glicko_deviation = pw.glicko_deviation ∧
      qw.glicko_volatility = pw.glicko_volatility := by
    cases hq : findPlayer s w with
    | none => rw [hq] at hw; simp at hw
    | some q =>
      rw [hq] at hw; simp at hw
      exact ⟨q, rfl, hw.1, hw.2.1, hw.2.2⟩
  obtain ⟨qb, hqb, hqb1, hqb2, hqb3⟩ : ∃ qb, findPlayer s b = some qb ∧
      qb.glicko_rating = pb.glicko_rating ∧ qb.glicko_deviation = pb.glicko_deviation ∧
      qb.glicko_volatility = pb.glicko_volatility := by
    cases hq : findPlayer s b with
    | none => rw [hq] at hb; simp at hb
    | some q =>
      rw [hq] at hb; simp at hb
      exact ⟨q, rfl, hb.1, hb.2.1, hb.2.2⟩
  have hgw : getP s w = qw := by simp [getP, hqw]
  have hgb : getP s b = qb := by simp [getP, hqb]
  simp only [glickoStep, hgw, hgb]
  rw [findPlayer_modifyPlayer, if_pos rfl, findPlayer_modifyPlayer, if_neg hwb, hqb]
  simp [hqw1, hqw2, hqw3, hqb1, hqb2, hqb3]

/-- C5: the stored Glicko-2 volatility respects the cap: after
processing any log, every player's `glicko_volatility` is at most 0.2;
and for any successfully parsed game between distinct players, each
participant's stored volatility becomes the 4-decimal rounding of
`min(sqrt((sigma^2 + delta^2/v)/2), 0.2)` where `sigma`, `delta` and `v`
(inside `glicko_sigma_new`) are derived from that player's and the
opponent's pre-game state, at white's score for white and at
`1 - score_a` for black. -/
theorem C5_glicko_volatility :
    (∀ lines : List Str, VolOk (processAll lines)) ∧
    (∀ (s : RatingState) (line : Str) (n : ℕ) (w b : Str) (ws bs : ℚ)
      (result : Str) (d : Option Str),
      parseLine line = ParseOutcome.ok w b ws bs result d → w ≠ b →
      ∀ pw pb : Player,
      findPlayer (init_player (init_player s w) b) w = some pw →
      findPlayer (init_player (init_player s w) b) b = some pb →
      (findPlayer (processGame s line n) w).map (fun p => p.glicko_volatility) =
        some (round4 (glicko_sigma_new pw.glicko_volatility
          (glicko2_scale (pw.glicko_rating : ℝ)) (glicko2_scale (pb.glicko_rating : ℝ))
          (pb.glicko_deviation / 173.7178) (ws : ℝ))) ∧
      (findPlayer (processGame s line n) b).map (fun p => p.glicko_volatility) =
        some (round4 (glicko_sigma_new pb.glicko_volatility
          (glicko2_scale (pb.glicko_rating : ℝ)) (glicko2_scale (pw.glicko_rating : ℝ))
          (pw.glicko_deviation / 173.7178) ((1 - ws : ℚ) : ℝ)))) := by
  constructor
  · intro lines
    exact volOk_processFrom lines initState 1 (fun m p hp => by simp [findPlayer, initState, alLookup] at hp)
  · intro s line n w b ws bs result d hp hwb pw pb hw hb
    simp only [processGame, hp, okUpdate]
    constructor
    · rw [findPlayer_setGames,
        map_find_historyStep (fun p => p.glicko_volatility) (fun p x => rfl),
        map_find_h2hStep (fun p => p.glicko_volatility) (fun p l => rfl),
        map_find_wdlStep (fun p => p.glicko_volatility) (fun p x => rfl)
          (fun p x => rfl) (fun p x => rfl),
        map_find_countStep (fun p => p.glicko_volatility) (fun p x => rfl),
        map_find_recordsStep (fun p => p.glicko_volatility) (fun p l => rfl) (fun p l => rfl),
        map_find_extremes (fun p => p.glicko_volatility) (fun p a c d e f g => rfl),
        map_find_extremes (fun p => p.glicko_volatility) (fun p a c d e f g => rfl),
        map_find_uscfStep (fun p => p.glicko_volatility) (fun p x => rfl) (fun p x => rfl)]
      apply map_find_glickoStep_self _ w b ws hwb pw pb
      · rw [map_find_eloMods (fun p => (p.glicko_rating, p.glicko_deviation, p.glicko_volatility))
          (fun p x => rfl), hw]
        rfl
      · rw [map_find_eloMods (fun p => (p.glicko_rating, p.glicko_deviation, p.glicko_volatility))
          (fun p x => rfl), hb]
        rfl
    · rw [findPlayer_setGames,
        map_find_historyStep (fun p => p.glicko_volatility) (fun p x => rfl),
        map_find_h2hStep (fun p => p.glicko_volatility) (fun p l => rfl),
        map_find_wdlStep (fun p => p.glicko_volatility) (fun p x => rfl)
          (fun p x => rfl) (fun p x => rfl),
        map_find_countStep (fun p => p.glicko_volatility) (fun p x => rfl),
        map_find_recordsStep (fun p => p.glicko_volatility) (fun p l => rfl) (fun p l => rfl),
        map_find_extremes (fun p => p.glicko_volatility) (fun p a c d e f g => rfl),
        map_find_extremes (fun p => p.glicko_volatility) (fun p a c d e f g => rfl),
        map_find_uscfStep (fun p => p.glicko_volatility) (fun p x => rfl) (fun p x => rfl)]
      apply map_find_glickoStep_self_b _ w b ws hwb pw pb
      · rw [map_find_eloMods (fun p => (p.glicko_rating, p.glicko_deviation, p.glicko_volatility))
          (fun p x => rfl), hw]
        rfl
      · rw [map_find_eloMods (fun p => (p.glicko_rating, p.glicko_deviation, p.glicko_volatility))
          (fun p x => rfl), hb]
        rfl

/-- Witness for C5: the invariant at the one-line log `"A - B x"`
(which initialises two default players), and the update formula for
both participants on `"A - B 1:0"` from the empty state. -/
theorem C5_glicko_volatility_witness :
    (defaultPlayer (str "A")).glicko_volatility ≤ 0.2 ∧
    (findPlayer (processGame initState (str "A - B 1:0") 1) (str "A")).map
      (fun p => p.glicko_volatility) =
      some (round4 (glicko_sigma_new (defaultPlayer (str "A")).glicko_volatility
        (glicko2_scale ((defaultPlayer (str "A")).glicko_rating : ℝ))
        (glicko2_scale ((defaultPlayer (str "B")).glicko_rating : ℝ))
        ((defaultPlayer (str "B")).glicko_deviation / 173.7178) ((1 : ℚ) : ℝ))) ∧
    (findPlayer (processGame initState (str "A - B 1:0") 1) (str "B")).map
      (fun p => p.glicko_volatility) =
      some (round4 (glicko_sigma_new (defaultPlayer (str "B")).glicko_volatility
        (glicko2_scale ((defaultPlayer (str "B")).glicko_rating : ℝ))
        (glicko2_scale ((defaultPlayer (str "A")).glicko_rating : ℝ))
        ((defaultPlayer (str "A")).glicko_deviation / 173.7178) ((1 - 1 : ℚ) : ℝ))) :=
  ⟨C5_glicko_volatility.1 [str "A - B x"] (str "A") (defaultPlayer (str "A")) rfl,
   (C5_glicko_volatility.2 initState (str "A - B 1:0") 1 (str "A") (str "B")
     1 0 (str "1:0") none rfl (by decide) _ _ rfl rfl).1,
   (C5_glicko_volatility.2 initState (str "A - B 1:0") 1 (str "A") (str "B")
     1 0 (str "1:0") none rfl (by decide) _ _ rfl rfl).2⟩

/-! ## The games = wins + draws + losses invariant -/

theorem countsOk_setGames (s : RatingState) (g : List GameRecord) (h : CountsOk s) :
    CountsOk { s with games := g } :=
  fun m p hp => h m p hp

theorem countsOk_of_map_eq (s s' : RatingState)
    (h : ∀ m, (findPlayer s' m).map (fun p => (p.games, p.wins, p.draws, p.losses)) =
      (findPlayer s m).map (fun p => (p.games, p.wins, p.draws, p.losses)))
    (hs : CountsOk s) : CountsOk s' := by
  intro m p hp
  have hm := h m
  rw [hp] at hm
  cases hq : findPlayer s m with
  | none => rw [hq] at hm; simp at hm
  | some q =>
    rw [hq] at hm; simp at hm
    obtain ⟨h1, h2, h3, h4⟩ := hm
    rw [h1, h2, h3, h4]
    exact hs m q hq

theorem countsOk_init_player (s : RatingState) (n : Str) (h : CountsOk s) :
    CountsOk (init_player s n) := by
  intro m p hp
  rcases findPlayer_init_cases s n m p hp with h1 | ⟨h1, _⟩
  · exact h m p h1
  · rw [h1]; rfl

/-- Lines 335-348: incrementing both game counters and then one
win/draw/loss counter per side preserves the counting identity
(also in the aliased case `w = b`, where the same player receives
two increments of each kind). -/
theorem countsOk_wdl_count (s : RatingState) (w b : Str) (ws bs : ℚ)
    (h : CountsOk s) : CountsOk (wdlStep (countStep s w b) w b ws bs) := by
  intro m p hp
  unfold wdlStep countStep at hp
  split_ifs at hp <;>
  · rw [findPlayer_modifyPlayer, findPlayer_modifyPlayer, findPlayer_modifyPlayer,
      findPlayer_modifyPlayer] at hp
    split_ifs at hp <;>
    · rcases hq : findPlayer s m with _ | q
      · rw [hq] at hp; simp at hp
      · rw [hq] at hp; simp at hp
        have hz := h m q hq
        rw [← hp]
        try simp
        omega

theorem countsOk_processGame (s : RatingState) (line : Str) (n : ℕ)
    (h : CountsOk s) : CountsOk (processGame s line n) := by
  unfold processGame
  cases hp : parseLine line with
  | structFail => exact h
  | resultFail w b => exact countsOk_init_player _ _ (countsOk_init_player _ _ h)
  | ok w b ws bs result d =>
    simp only [okUpdate]
    apply countsOk_setGames
    apply countsOk_of_map_eq _ _
      (fun m => map_find_historyStep (fun p => (p.games, p.wins, p.draws, p.losses))
        (fun p x => rfl) _ _ _ _ _ _)
    apply countsOk_of_map_eq _ _
      (fun m => map_find_h2hStep (fun p => (p.games, p.wins, p.draws, p.losses))
        (fun p l => rfl) _ _ _ _ _ _)
    apply countsOk_wdl_count
    apply countsOk_of_map_eq _ _
      (fun m => map_find_recordsStep (fun p => (p.games, p.wins, p.draws, p.losses))
        (fun p l => rfl) (fun p l => rfl) _ _ _ _ _ _ _ _ _ _)
    apply countsOk_of_map_eq _ _
      (fun m => map_find_extremes (fun p => (p.games, p.wins, p.draws, p.losses))
        (fun p a c d e f g => rfl) _ _ _)
    apply countsOk_of_map_eq _ _
      (fun m => map_find_extremes (fun p => (p.games, p.wins, p.draws, p.losses))
        (fun p a c d e f g => rfl) _ _ _)
    apply countsOk_of_map_eq _ _
      (fun m => map_find_uscfStep (fun p => (p.games, p.wins, p.draws, p.losses))
        (fun p x => rfl) (fun p x => rfl) _ _ _ _ _)
    apply countsOk_of_map_eq _ _
      (fun m => map_find_glickoStep (fun p => (p.games, p.wins, p.draws, p.losses))
        (fun p x y z => rfl) _ _ _ _ _)
    apply countsOk_of_map_eq _ _
      (fun m => map_find_eloMods (fun p => (p.games, p.wins, p.draws, p.losses))
        (fun p x => rfl) _ _ _ _ _ _)
    exact countsOk_init_player _ _ (countsOk_init_player _ _ h)

theorem countsOk_processFrom (lines : List Str) :
    ∀ (s : RatingState) (i : ℕ), CountsOk s → CountsOk (processFrom s i lines) := by
  induction lines with
  | nil => exact fun s i h => h
  | cons l t ih => exact fun s i h => ih _ _ (countsOk_processGame _ _ _ h)

/-- C7: after processing any prefix of the input log, every player
satisfies `games == wins + draws + losses`. -/
theorem C7_counts_invariant (lines : List Str) : CountsOk (processAll lines) :=
  countsOk_processFrom lines initState 1
    (fun m p hp => by simp [findPlayer, initState, alLookup] at hp)

/-- Witness for C7: after processing the one-line log `"A - B x"`
(whose invalid result token still initialises both players), the white
player's entry satisfies the identity. -/
theorem C7_counts_invariant_witness :
    (defaultPlayer (str "A")).games =
      (defaultPlayer (str "A")).wins + (defaultPlayer (str "A")).draws +
        (defaultPlayer (str "A")).losses :=
  C7_counts_invariant [str "A - B x"] (str "A") (defaultPlayer (str "A")) rfl

/-! ## The uscf_games = games invariant -/

theorem gamesEqOk_setGames (s : RatingState) (g : List GameRecord) (h : GamesEqOk s) :
    GamesEqOk { s with games := g } :=
  fun m p hp => h m p hp

theorem gamesEqOk_of_map_eq (s s' : RatingState)
    (h : ∀ m, (findPlayer s' m).map (fun p => (p.games, p.uscf_games)) =
      (findPlayer s m).map (fun p => (p.games, p.uscf_games)))
    (hs : GamesEqOk s) : GamesEqOk s' := by
  intro m p hp
  have hm := h m
  rw [hp] at hm
  cases hq : findPlayer s m with
  | none => rw [hq] at hm; simp at hm
  | some q =>
    rw [hq] at hm; simp at hm
    rw [hm.1, hm.2]
    exact hs m q hq

theorem gamesEqOff_of_map_eq (s s' : RatingState) (w b : Str)
    (h : ∀ m, (findPlayer s' m).map (fun p => (p.games, p.uscf_games)) =
      (findPlayer s m).map (fun p => (p.games, p.uscf_games)))
    (hs : GamesEqOff s w b) : GamesEqOff s' w b := by
  intro m p hp
  have hm := h m
  rw [hp] at hm
  cases hq : findPlayer s m with
  | none => rw [hq] at hm; simp at hm
  | some q =>
    rw [hq] at hm; simp at hm
    rw [hm.1, hm.2]
    exact hs m q hq

theorem gamesEqOk_init_player (s : RatingState) (n : Str) (h : GamesEqOk s) :
    GamesEqOk (init_player s n) := by
  intro m p hp
  rcases findPlayer_init_cases s n m p hp with h1 | ⟨h1, _⟩
  · exact h m p h1
  · rw [h1]; rfl

/-- `update_uscf_ratings` puts each participant's USCF game counter
ahead of the game counter by their number of occurrences. -/
theorem gamesEqOff_uscfStep (s : RatingState) (w b : Str) (sc : ℚ)
    (h : GamesEqOk s) : GamesEqOff (uscfStep s w b sc) w b := by
  intro m p hp
  simp only [uscfStep] at hp
  rw [findPlayer_modifyPlayer, findPlayer_modifyPlayer, findPlayer_modifyPlayer,
    findPlayer_modifyPlayer] at hp
  split_ifs at hp ⊢ <;>
  · rcases hq : findPlayer s m with _ | q
    · rw [hq] at hp; simp at hp
    · rw [hq] at hp; simp at hp
      have hz := h m q hq
      rw [← hp]
      try simp
      omega

/-- The game-count increments then restore the equality. -/
theorem gamesEqOk_countStep_of_off (s : RatingState) (w b : Str)
    (h : GamesEqOff s w b) : GamesEqOk (countStep s w b) := by
  intro m p hp
  unfold countStep at hp
  rw [findPlayer_modifyPlayer, findPlayer_modifyPlayer] at hp
  by_cases hb1 : b = m <;> by_cases hw1 : w = m <;>
  · simp only [hb1, hw1, if_pos, if_neg, if_true, if_false, not_false_iff] at hp
    rcases hq : findPlayer s m with _ | q
    · rw [hq] at hp; simp at hp
    · rw [hq] at hp; simp at hp
      have hz := h m q hq
      simp [hb1, hw1] at hz
      rw [← hp]
      try simp
      omega

theorem gamesEqOk_processGame (s : RatingState) (line : Str) (n : ℕ)
    (h : GamesEqOk s) : GamesEqOk (processGame s line n) := by
  unfold processGame
  cases hp : parseLine line with
  | structFail => exact h
  | resultFail w b => exact gamesEqOk_init_player _ _ (gamesEqOk_init_player _ _ h)
  | ok w b ws bs result d =>
    simp only [okUpdate]
    apply gamesEqOk_setGames
    apply gamesEqOk_of_map_eq _ _
      (fun m => map_find_historyStep (fun p => (p.games, p.uscf_games))
        (fun p x => rfl) _ _ _ _ _ _)
    apply gamesEqOk_of_map_eq _ _
      (fun m => map_find_h2hStep (fun p => (p.games, p.uscf_games))
        (fun p l => rfl) _ _ _ _ _ _)
    apply gamesEqOk_of_map_eq _ _
      (fun m => map_find_wdlStep (fun p => (p.games, p.uscf_games)) (fun p x => rfl)
        (fun p x => rfl) (fun p x => rfl) _ _ _ _ _ _)
    apply gamesEqOk_countStep_of_off
    apply gamesEqOff_of_map_eq _ _ _ _
      (fun m => map_find_recordsStep (fun p => (p.games, p.uscf_games)) (fun p l => rfl)
        (fun p l => rfl) _ _ _ _ _ _ _ _ _ _)
    apply gamesEqOff_of_map_eq _ _ _ _
      (fun m => map_find_extremes (fun p => (p.games, p.uscf_games))
        (fun p a c d e f g => rfl) _ _ _)
    apply gamesEqOff_of_map_eq _ _ _ _
      (fun m => map_find_extremes (fun p => (p.games, p.uscf_games))
        (fun p a c d e f g => rfl) _ _ _)
    apply gamesEqOff_uscfStep
    apply gamesEqOk_of_map_eq _ _
      (fun m => map_find_glickoStep (fun p => (p.games, p.uscf_games))
        (fun p x y z => rfl) _ _ _ _ _)
    apply gamesEqOk_of_map_eq _ _
      (fun m => map_find_eloMods (fun p => (p.games, p.uscf_games))
        (fun p x => rfl) _ _ _ _ _ _)
    exact gamesEqOk_init_player _ _ (gamesEqOk_init_player _ _ h)

theorem gamesEqOk_processFrom (lines : List Str) :
    ∀ (s : RatingState) (i : ℕ), GamesEqOk s → GamesEqOk (processFrom s i lines) := by
  induction lines with
  | nil => exact fun s i h => h
  | cons l t ih => exact fun s i h => ih _ _ (gamesEqOk_processGame _ _ _ h)

/-- C9: after processing any prefix of the input log, every player's
USCF game counter equals their overall game counter: both are
incremented exactly once per game the player participates in (twice for
a self-game), so the two counters never differ. -/
theorem C9_uscf_games_eq_games (lines : List Str) : GamesEqOk (processAll lines) :=
  gamesEqOk_processFrom lines initState 1
    (fun m p hp => by simp [findPlayer, initState, alLookup] at hp)

/-- Witness for C9: after processing the one-line log `"A - B x"`,
the white player's two counters agree. -/
theorem C9_uscf_games_eq_games_witness :
    (defaultPlayer (str "A")).uscf_games = (defaultPlayer (str "A")).games :=
  C9_uscf_games_eq_games [str "A - B x"] (str "A") (defaultPlayer (str "A")) rfl

/-! ## `format_date` analysis -/

theorem digitChar_props (k : ℕ) (h : k ≤ 9) :
    (Char.ofNat (48 + k)).isWhitespace = false ∧ (Char.ofNat (48 + k)).isDigit = true ∧
    (Char.ofNat (48 + k)).toNat = 48 + k ∧ Char.ofNat (48 + k) ≠ '+' ∧
    Char.ofNat (48 + k) ≠ '-' := by
  interval_cases k <;> exact ⟨by decide, by decide, by decide, by decide, by decide⟩

theorem pyStrip_twoDigits (m : ℕ) (h : m ≤ 99) : pyStrip (twoDigits m) = twoDigits m := by
  have h1 := (digitChar_props (m / 10) (by omega)).1
  have h2 := (digitChar_props (m % 10) (by omega)).1
  simp [pyStrip, twoDigits, List.dropWhile_cons, h1, h2]

theorem digitsValAux_step (a : ℕ) (c : Char) (t : Str) :
    digitsValAux a (c :: t) = digitsValAux (10 * a + (c.toNat - 48)) t := rfl

theorem digitsValAux_twoDigits (m : ℕ) (h : m ≤ 99) :
    digitsValAux 0 (twoDigits m) = m := by
  have h3 := (digitChar_props (m / 10) (by omega)).2.2.1
  have h4 := (digitChar_props (m % 10) (by omega)).2.2.1
  show digitsValAux 0 [Char.ofNat (48 + m / 10), Char.ofNat (48 + m % 10)] = m
  rw [digitsValAux_step, digitsValAux_step,
    show ∀ a, digitsValAux a [] = a from fun a => rfl, h3, h4]
  omega

theorem pyInt_twoDigits (m : ℕ) (h : m ≤ 99) :
    pyInt (twoDigits m) = some ((m : ℕ) : ℤ) := by
  have hp := digitChar_props (m / 10) (by omega)
  have hq := digitChar_props (m % 10) (by omega)
  have hv := digitsValAux_twoDigits m h
  unfold pyInt
  rw [pyStrip_twoDigits m h]
  simp only [twoDigits] at hv ⊢
  simp [hp.2.2.2.1, hp.2.2.2.2, hp.2.1, hq.2.1, hv]

theorem intStr_natCast (d : ℕ) : intStr ((d : ℕ) : ℤ) = Nat.toDigits 10 d := by
  unfold intStr
  rw [if_neg (by omega : ¬(((d : ℕ) : ℤ) < 0))]
  simp

theorem pyIndex_months_in (m : ℕ) (h1 : 1 ≤ m) (h2 : m ≤ 12) :
    pyIndex months (((m : ℕ) : ℤ) - 1) = some (months.getD (m - 1) []) := by
  interval_cases m <;> decide

theorem pyIndex_months_zero :
    pyIndex months (((0 : ℕ) : ℤ) - 1) = some (str "Dec") := by decide

theorem pyIndex_months_ge13 (m : ℕ) (h1 : 13 ≤ m) :
    pyIndex months (((m : ℕ) : ℤ) - 1) = none := by
  have hlen : months.length = 12 := rfl
  simp only [pyIndex]
  rw [if_neg (by omega : ¬(((m : ℕ) : ℤ) - 1 < 0)),
    if_pos (by omega : (0 : ℤ) ≤ ((m : ℕ) : ℤ) - 1),
    List.getElem?_eq_none (by omega)]

/-- `format_date` on a string assembled from an arbitrary 4-character
year, a 2-digit month and a 2-digit day: the length test passes, the
month is parsed and used as a (possibly negative) index into `months`,
the day is parsed and rendered, the year is copied verbatim. -/
theorem format_date_parts (year : Str) (hy : year.length = 4) (m d : ℕ)
    (hm : m ≤ 99) (hd : d ≤ 99) :
    format_date (year ++ twoDigits m ++ twoDigits d) =
      match pyIndex months (((m : ℕ) : ℤ) - 1) with
      | none => none
      | some month_name =>
        some (month_name ++ [' '] ++ Nat.toDigits 10 d ++ [',', ' '] ++ year) := by
  have hlen : (year ++ twoDigits m ++ twoDigits d).length = 8 := by
    simp [twoDigits, hy]
  have htake : (year ++ twoDigits m ++ twoDigits d).take 4 = year := by
    rw [List.append_assoc, show (4 : ℕ) = year.length from hy.symm, List.take_left]
  have hdrop : (year ++ twoDigits m ++ twoDigits d).drop 4 = twoDigits m ++ twoDigits d := by
    rw [List.append_assoc, show (4 : ℕ) = year.length from hy.symm, List.drop_left]
  have hmonth : ((year ++ twoDigits m ++ twoDigits d).drop 4).take 2 = twoDigits m := by
    rw [hdrop, show (2 : ℕ) = (twoDigits m).length from rfl, List.take_left]
  have hday : (year ++ twoDigits m ++ twoDigits d).drop 6 = twoDigits d := by
    rw [show (6 : ℕ) = 4 + 2 from rfl, ← List.drop_drop, hdrop,
      show (2 : ℕ) = (twoDigits m).length from rfl, List.drop_left]
  unfold format_date
  rw [if_neg (by rw [hlen]; omega), hmonth, hday, htake]
  simp only []
  rw [pyInt_twoDigits m hm, pyInt_twoDigits d hd]
  simp only []
  cases pyIndex months (((m : ℕ) : ℤ) - 1) with
  | none => rfl
  | some month_name => simp [intStr_natCast]

/-- On any 8-character input whose month slice `[4:6]` or day slice
`[6:8]` is not accepted by Python `int` (a `ValueError`, caught at
source line 213), `format_date` returns the no-date result. -/
theorem format_date_nonnumeric (s : Str) (hlen : s.length = 8)
    (h : pyInt ((s.drop 4).take 2) = none ∨ pyInt (s.drop 6) = none) :
    format_date s = none := by
  unfold format_date
  rw [if_neg (by rw [hlen]; omega)]
  simp only []
  rcases h with h | h
  · rw [h]
  · cases hm : pyInt ((s.drop 4).take 2) with
    | none => rfl
    | some m =>
      simp only []
      cases hi : pyIndex months (m - 1) with
      | none => rfl
      | some mn =>
        simp only []
        rw [h]

/-- C4 counterexample: `format_date` does NOT return the no-date result
for every out-of-range month or day.  Month `00` is mapped through
Python's negative indexing to `"Dec"`, a day of `99` is rendered
unchecked, and even a non-numeric year is copied verbatim. -/
theorem C4_format_date_counterexample :
    format_date (str "20250015") = some (str "Dec 15, 2025") ∧
    format_date (str "20250199") = some (str "Jan 99, 2025") ∧
    format_date (str "abcd1231") = some (str "Dec 31, abcd") := by
  refine ⟨by decide, by decide, by decide⟩

/-- C4 (amended): for an 8-character input assembled from a 4-character
year, a 2-digit month and a 2-digit day, `format_date` returns
`"Mon D, YYYY"` from the fixed month table when the month is in 1..12
(the day and year are not validated: any 2-digit day is rendered as its
integer value and the year substring is copied verbatim); month 00
renders as `"Dec"` via Python negative indexing; months 13..99 yield
the no-date result; an 8-character input whose month or day slice is
non-numeric (rejected by Python `int`) yields the no-date result; and
no input raises an error (`format_date` is a total function). -/
theorem C4_format_date_amended (year : Str) (hy : year.length = 4) (m d : ℕ)
    (hm : m ≤ 99) (hd : d ≤ 99) :
    (1 ≤ m → m ≤ 12 →
      format_date (year ++ twoDigits m ++ twoDigits d) =
        some (months.getD (m - 1) [] ++ [' '] ++ Nat.toDigits 10 d ++ [',', ' '] ++ year)) ∧
    (m = 0 →
      format_date (year ++ twoDigits m ++ twoDigits d) =
        some (str "Dec" ++ [' '] ++ Nat.toDigits 10 d ++ [',', ' '] ++ year)) ∧
    (13 ≤ m → format_date (year ++ twoDigits m ++ twoDigits d) = none) ∧
    (∀ s : Str, s.length = 8 →
      pyInt ((s.drop 4).take 2) = none ∨ pyInt (s.drop 6) = none →
      format_date s = none) := by
  refine ⟨?_, ?_, ?_, fun s hl h => format_date_nonnumeric s hl h⟩
  · intro h1 h2
    rw [format_date_parts year hy m d hm hd, pyIndex_months_in m h1 h2]
  · intro h0
    subst h0
    rw [format_date_parts year hy 0 d (by omega) hd, pyIndex_months_zero]
  · intro h13
    rw [format_date_parts year hy m d hm hd, pyIndex_months_ge13 m h13]

/-! ## The bounded sorted biggest-win / biggest-upset lists -/

theorem descByDiff_trans (a b c : BigRecord) :
    descByDiff a b → descByDiff b c → descByDiff a c := by
  simp only [descByDiff, decide_eq_true_eq]
  omega

theorem descByDiff_total (a b : BigRecord) : descByDiff a b || descByDiff b a := by
  simp only [descByDiff, Bool.or_eq_true, decide_eq_true_eq]
  omega

theorem sortTrunc_length (l : List BigRecord) : (sortTrunc l).length ≤ 5 := by
  unfold sortTrunc
  rw [List.length_take]
  exact min_le_left _ _

theorem sortTrunc_sorted (l : List BigRecord) :
    (sortTrunc l).Pairwise (fun x y => y.rating_diff ≤ x.rating_diff) := by
  unfold sortTrunc
  have hs := List.sorted_mergeSort descByDiff_trans descByDiff_total l
  have hs2 : (l.mergeSort descByDiff).Pairwise (fun x y => y.rating_diff ≤ x.rating_diff) :=
    hs.imp (by intro a b h; simpa [descByDiff] using h)
  exact List.Pairwise.sublist (List.take_sublist _ _) hs2

/-- Stability of the top-5 update: among entries with any fixed rating
gap, the stored (sorted, truncated) list keeps them as a prefix of their
prior relative order in the appended list. -/
theorem sortTrunc_stable (x : List BigRecord) (d : ℤ) :
    ∃ rest, x.filter (fun r => decide (r.rating_diff = d)) =
      (sortTrunc x).filter (fun r => decide (r.rating_diff = d)) ++ rest := by
  have h1 : (x.filter (fun r => decide (r.rating_diff = d))).Pairwise
      (fun a b => descByDiff a b) := by
    apply List.pairwise_of_forall_mem_list
    intro a ha b hb
    have ha2 := of_decide_eq_true (List.mem_filter.mp ha).2
    have hb2 := of_decide_eq_true (List.mem_filter.mp hb).2
    simp only [descByDiff, decide_eq_true_eq]
    omega
  have h3 : List.Sublist (x.filter (fun r => decide (r.rating_diff = d)))
      (x.mergeSort descByDiff) :=
    List.sublist_mergeSort descByDiff_trans descByDiff_total h1 (List.filter_sublist x)
  have h4 := h3.filter (fun r => decide (r.rating_diff = d))
  have h5 : (x.filter (fun r => decide (r.rating_diff = d))).filter
      (fun r => decide (r.rating_diff = d)) =
      x.filter (fun r => decide (r.rating_diff = d)) :=
    List.filter_eq_self.mpr (fun a ha => (List.mem_filter.mp ha).2)
  rw [h5] at h4
  have h7 : ((x.mergeSort descByDiff).filter (fun r => decide (r.rating_diff = d))).length =
      (x.filter (fun r => decide (r.rating_diff = d))).length :=
    ((List.mergeSort_perm x descByDiff).filter _).length_eq
  have hkey : x.filter (fun r => decide (r.rating_diff = d)) =
      (x.mergeSort descByDiff).filter (fun r => decide (r.rating_diff = d)) :=
    h4.eq_of_length h7.symm
  refine ⟨((x.mergeSort descByDiff).drop 5).filter (fun r => decide (r.rating_diff = d)), ?_⟩
  rw [hkey]
  conv_lhs => rw [← List.take_append_drop 5 (x.mergeSort descByDiff)]
  rw [List.filter_append]
  rfl

theorem topOk_setGames (s : RatingState) (g : List GameRecord) (h : TopFiveOk s) :
    TopFiveOk { s with games := g } :=
  fun m p hp => h m p hp

theorem topOk_of_map_eq (s s' : RatingState)
    (h : ∀ m, (findPlayer s' m).map (fun p => (p.biggest_wins, p.biggest_upsets)) =
      (findPlayer s m).map (fun p => (p.biggest_wins, p.biggest_upsets)))
    (hs : TopFiveOk s) : TopFiveOk s' := by
  intro m p hp
  have hm := h m
  rw [hp] at hm
  cases hq : findPlayer s m with
  | none => rw [hq] at hm; simp at hm
  | some q =>
    rw [hq] at hm; simp at hm
    rw [hm.1, hm.2]
    exact hs m q hq

theorem topOk_init_player (s : RatingState) (n : Str) (h : TopFiveOk s) :
    TopFiveOk (init_player s n) := by
  intro m p hp
  rcases findPlayer_init_cases s n m p hp with h1 | ⟨h1, _⟩
  · exact h m p h1
  · rw [h1]
    exact ⟨Nat.zero_le 5, Nat.zero_le 5, List.Pairwise.nil, List.Pairwise.nil⟩

theorem topOk_recordsStep (s : RatingState) (w b : Str) (ws bs : ℚ) (wrb brb : ℤ)
    (n : ℕ) (d : Option Str) (h : TopFiveOk s) :
    TopFiveOk (recordsStep s w b ws bs wrb brb n d) := by
  intro m p hp
  simp only [recordsStep] at hp
  split_ifs at hp <;>
  [skip; exact h m p hp; skip; exact h m p hp; exact h m p hp] <;>
  · rw [findPlayer_modifyPlayer, findPlayer_modifyPlayer] at hp
    split_ifs at hp <;>
    · rcases hq : findPlayer s m with _ | q
      · rw [hq] at hp; simp at hp
      · rw [hq] at hp; simp at hp
        obtain ⟨e1, e2, e3, e4⟩ := h m q hq
        rw [← hp]
        refine ⟨?_, ?_, ?_, ?_⟩ <;>
          first
            | exact sortTrunc_length _
            | exact sortTrunc_sorted _
            | assumption

theorem topOk_processGame (s : RatingState) (line : Str) (n : ℕ)
    (h : TopFiveOk s) : TopFiveOk (processGame s line n) := by
  unfold processGame
  cases hp : parseLine line with
  | structFail => exact h
  | resultFail w b => exact topOk_init_player _ _ (topOk_init_player _ _ h)
  | ok w b ws bs result d =>
    simp only [okUpdate]
    apply topOk_setGames
    apply topOk_of_map_eq _ _
      (fun m => map_find_historyStep (fun p => (p.biggest_wins, p.biggest_upsets))
        (fun p x => rfl) _ _ _ _ _ _)
    apply topOk_of_map_eq _ _
      (fun m => map_find_h2hStep (fun p => (p.biggest_wins, p.biggest_upsets))
        (fun p l => rfl) _ _ _ _ _ _)
    apply topOk_of_map_eq _ _
      (fun m => map_find_wdlStep (fun p => (p.biggest_wins, p.biggest_upsets))
        (fun p x => rfl) (fun p x => rfl) (fun p x => rfl) _ _ _ _ _ _)
    apply topOk_of_map_eq _ _
      (fun m => map_find_countStep (fun p => (p.biggest_wins, p.biggest_upsets))
        (fun p x => rfl) _ _ _ _)
    apply topOk_recordsStep
    apply topOk_of_map_eq _ _
      (fun m => map_find_extremes (fun p => (p.biggest_wins, p.biggest_upsets))
        (fun p a c d e f g => rfl) _ _ _)
    apply topOk_of_map_eq _ _
      (fun m => map_find_extremes (fun p => (p.biggest_wins, p.biggest_upsets))
        (fun p a c d e f g => rfl) _ _ _)
    apply topOk_of_map_eq _ _
      (fun m => map_find_uscfStep (fun p => (p.biggest_wins, p.biggest_upsets))
        (fun p x => rfl) (fun p x => rfl) _ _ _ _ _)
    apply topOk_of_map_eq _ _
      (fun m => map_find_glickoStep (fun p => (p.biggest_wins, p.biggest_upsets))
        (fun p x y z => rfl) _ _ _ _ _)
    apply topOk_of_map_eq _ _
      (fun m => map_find_eloMods (fun p => (p.biggest_wins, p.biggest_upsets))
        (fun p x => rfl) _ _ _ _ _ _)
    exact topOk_init_player _ _ (topOk_init_player _ _ h)

theorem topOk_processFrom (lines : List Str) :
    ∀ (s : RatingState) (i : ℕ), TopFiveOk s → TopFiveOk (processFrom s i lines) := by
  induction lines with
  | nil => exact fun s i h => h
  | cons l t ih => exact fun s i h => ih _ _ (topOk_processGame _ _ _ h)

/-- C8: after processing any prefix of the log, every player's
biggest-win and biggest-upset lists have at most 5 entries and are
sorted by non-increasing rating gap; and the update is stable: among
entries of any fixed rating gap, the stored list keeps a prefix of
their prior relative order. -/
theorem C8_top5_lists :
    (∀ lines : List Str, TopFiveOk (processAll lines)) ∧
    (∀ (x : List BigRecord) (d : ℤ), ∃ rest,
      x.filter (fun r => decide (r.rating_diff = d)) =
        (sortTrunc x).filter (fun r => decide (r.rating_diff = d)) ++ rest) := by
  constructor
  · intro lines
    exact topOk_processFrom lines initState 1
      (fun m p hp => by simp [findPlayer, initState, alLookup] at hp)
  · exact sortTrunc_stable

/-- Witness for C8: the invariant after the one-line log `"A - B x"`,
and the stability statement at the empty list. -/
theorem C8_top5_lists_witness :
    ((defaultPlayer (str "A")).biggest_wins.length ≤ 5 ∧
      (defaultPlayer (str "A")).biggest_upsets.length ≤ 5 ∧
      (defaultPlayer (str "A")).biggest_wins.Pairwise
        (fun x y => y.rating_diff ≤ x.rating_diff) ∧
      (defaultPlayer (str "A")).biggest_upsets.Pairwise
        (fun x y => y.rating_diff ≤ x.rating_diff)) ∧
    (∃ rest, ([] : List BigRecord).filter (fun r => decide (r.rating_diff = 0)) =
      (sortTrunc []).filter (fun r => decide (r.rating_diff = 0)) ++ rest) :=
  ⟨C8_top5_lists.1 [str "A - B x"] (str "A") (defaultPlayer (str "A")) rfl,
   C8_top5_lists.2 [] 0⟩

/-! ## Skip semantics of unparsable lines -/

/-- C1 counterexample: the line `"A - B x"` is unparsable (its result
token `x` is invalid, so no game record is produced), yet `process_game`
creates a player entry for `"A"` before rejecting the result token
(source lines 248-255). -/
theorem C1_skip_counterexample :
    findPlayer initState (str "A") = none ∧
    (processGame initState (str "A - B x") 1).games = [] ∧
    findPlayer (processGame initState (str "A - B x") 1) (str "A") =
      some (defaultPlayer (str "A")) :=
  ⟨rfl, rfl, rfl⟩

/-- C1 (amended): a line that fails the structural checks (empty, fewer
than 3 tokens, no single-space split point, missing `" - "` separator)
leaves the state completely unchanged; a line whose players parse but
whose result token is invalid appends no game record and modifies no
existing player field, but does create the (at most two) missing player
entries with default initial stats. -/
theorem C1_skip_semantics :
    (∀ (s : RatingState) (line : Str) (n : ℕ),
      parseLine line = ParseOutcome.structFail → processGame s line n = s) ∧
    (∀ (s : RatingState) (line : Str) (n : ℕ) (w b : Str),
      parseLine line = ParseOutcome.resultFail w b →
      (processGame s line n).games = s.games ∧
      (∀ m p, findPlayer s m = some p → findPlayer (processGame s line n) m = some p) ∧
      (∀ m p, findPlayer (processGame s line n) m = some p →
        findPlayer s m = some p ∨ (p = defaultPlayer m ∧ (m = w ∨ m = b)))) := by
  constructor
  · intro s line n h
    simp [processGame, h]
  · intro s line n w b h
    have hpg : processGame s line n = init_player (init_player s w) b := by
      simp [processGame, h]
    rw [hpg]
    refine ⟨by rw [games_init_player, games_init_player], ?_, ?_⟩
    · intro m p hp
      exact findPlayer_init_of_found _ _ _ _ (findPlayer_init_of_found _ _ _ _ hp)
    · intro m p hp
      rcases findPlayer_init_cases _ _ _ _ hp with h1 | ⟨h1, h2, -⟩
      · rcases findPlayer_init_cases _ _ _ _ h1 with h3 | ⟨h3, h4, -⟩
        · exact Or.inl h3
        · exact Or.inr ⟨h3, Or.inl h4⟩
      · exact Or.inr ⟨h1, Or.inr h2⟩

/-- Witness for the amended C1: a structurally unparsable line changes
nothing, and an invalid-result line appends no game record. -/
theorem C1_skip_semantics_witness :
    processGame initState (str "garbage") 1 = initState ∧
    (processGame initState (str "A - B x") 1).games = initState.games :=
  ⟨C1_skip_semantics.1 initState (str "garbage") 1 rfl,
   (C1_skip_semantics.2 initState (str "A - B x") 1 (str "A") (str "B") rfl).1⟩

/-! ## Head-to-head symmetry -/

theorem alSet_alSet {α : Type} (l : List (Str × α)) (n : Str) (v w : α) :
    alSet (alSet l n v) n w = alSet l n w := by
  induction l with
  | nil => simp [alSet]
  | cons h t ih =>
    obtain ⟨k, x⟩ := h
    by_cases hkn : k = n <;> simp [alSet, hkn, ih]

theorem lookup_modifyOpp (p : Player) (o q : Str) (f : H2HRecord → H2HRecord) :
    alLookup (modifyOpp p o f).opponents q =
      match alLookup p.opponents o with
      | none => alLookup p.opponents q
      | some r => if o = q then some (f r) else alLookup p.opponents q := by
  unfold modifyOpp
  cases ho : alLookup p.opponents o with
  | none => simp [ho]
  | some r => simp [ho, alLookup_alSet]

theorem lookup_ensureOpp (p : Player) (o q : Str) :
    alLookup (ensureOpp p o).opponents q =
      match alLookup p.opponents o with
      | some _ => alLookup p.opponents q
      | none =>
        if o = q then some (H2HRecord.mk 0 0 0 0) else alLookup p.opponents q := by
  unfold ensureOpp
  cases ho : alLookup p.opponents o with
  | some r => simp [ho]
  | none =>
    simp only [ho, alLookup_append_single]
    by_cases hq : o = q
    · subst hq; rw [ho]; rfl
    · cases hqq : alLookup p.opponents q <;> simp [hqq, hq, Option.orElse]

theorem ensureOpp_of_isSome (p : Player) (o : Str)
    (h : (alLookup p.opponents o).isSome = true) : ensureOpp p o = p := by
  unfold ensureOpp
  cases ho : alLookup p.opponents o with
  | none => rw [ho] at h; simp at h
  | some r => rfl

theorem lookup_ensureOpp_self (p : Player) (o : Str) :
    alLookup (ensureOpp p o).opponents o =
      some ((alLookup p.opponents o).getD (H2HRecord.mk 0 0 0 0)) := by
  rw [lookup_ensureOpp]
  cases ho : alLookup p.opponents o <;> simp [ho]

theorem ensureOpp_idem (p : Player) (o : Str) :
    ensureOpp (ensureOpp p o) o = ensureOpp p o :=
  ensureOpp_of_isSome _ _ (by rw [lookup_ensureOpp_self]; rfl)

theorem modifyOpp_modifyOpp (p : Player) (o : Str) (f g : H2HRecord → H2HRecord) :
    modifyOpp (modifyOpp p o f) o g = modifyOpp p o (fun r => g (f r)) := by
  unfold modifyOpp
  cases ho : alLookup p.opponents o with
  | none => simp [ho]
  | some r => simp [ho, alLookup_alSet, alSet_alSet]

/-- The elementary shape of the head-to-head update of one side: ensure
the entry, then mutate it; every other key is untouched. -/
theorem oppChain1_lookup (p : Player) (o q : Str) (f : H2HRecord → H2HRecord) :
    alLookup (modifyOpp (ensureOpp p o) o f).opponents q =
      if o = q then some (f ((alLookup p.opponents o).getD (H2HRecord.mk 0 0 0 0)))
      else alLookup p.opponents q := by
  rw [lookup_modifyOpp, lookup_ensureOpp_self]
  by_cases hq : o = q
  · simp [hq]
  · simp only [hq, if_false, if_neg hq]
    rw [lookup_ensureOpp]
    cases ho : alLookup p.opponents o <;> simp [ho, hq]

theorem map_eq_some {α β : Type} (f : α → β) (x : Option α) (y : β)
    (h : x.map f = some y) : ∃ a, x = some a ∧ y = f a := by
  cases x with
  | none => simp at h
  | some a => simp at h; exact ⟨a, rfl, h.symm⟩

/-- The white player's transformation inside the head-to-head step,
for distinct names. -/
theorem h2hStep_find_w (s : RatingState) (w b : Str) (ws bs : ℚ) (hwb : w ≠ b) :
    findPlayer (h2hStep s w b ws bs) w = (findPlayer s w).map (fun p =>
      modifyOpp (modifyOpp (ensureOpp p b) b (fun r => { r with games := r.games + 1 }))
        b (fun r => h2hIncWhite ws bs r)) := by
  have hbw : ¬(b = w) := fun h => hwb h.symm
  simp only [h2hStep]
  split_ifs with hws hbs <;>
    rw [findPlayer_modifyPlayer, findPlayer_modifyPlayer, findPlayer_modifyPlayer,
      findPlayer_modifyPlayer, findPlayer_modifyPlayer, findPlayer_modifyPlayer] <;>
    simp [hbw, Option.map_map, Function.comp_def, h2hIncWhite, *]

/-- The black player's transformation inside the head-to-head step,
for distinct names. -/
theorem h2hStep_find_b (s : RatingState) (w b : Str) (ws bs : ℚ) (hwb : w ≠ b) :
    findPlayer (h2hStep s w b ws bs) b = (findPlayer s b).map (fun p =>
      modifyOpp (modifyOpp (ensureOpp p w) w (fun r => { r with games := r.games + 1 }))
        w (fun r => h2hIncBlack ws bs r)) := by
  simp only [h2hStep]
  split_ifs with hws hbs <;>
    rw [findPlayer_modifyPlayer, findPlayer_modifyPlayer, findPlayer_modifyPlayer,
      findPlayer_modifyPlayer, findPlayer_modifyPlayer, findPlayer_modifyPlayer] <;>
    simp [hwb, Option.map_map, Function.comp_def, h2hIncBlack, *]

/-- Non-participants are untouched by the head-to-head step. -/
theorem h2hStep_find_other (s : RatingState) (w b : Str) (ws bs : ℚ) (m : Str)
    (hm1 : ¬(w = m)) (hm2 : ¬(b = m)) :
    findPlayer (h2hStep s w b ws bs) m = findPlayer s m := by
  simp only [h2hStep]
  split_ifs with hws hbs <;>
    rw [findPlayer_modifyPlayer, findPlayer_modifyPlayer, findPlayer_modifyPlayer,
      findPlayer_modifyPlayer, findPlayer_modifyPlayer, findPlayer_modifyPlayer] <;>
    simp [hm1, hm2, *]

/-- The aliased (self-game) transformation inside the head-to-head
step: both ensure calls and all four increments hit the same player's
single self-entry. -/
theorem h2hStep_find_alias (s : RatingState) (w : Str) (ws bs : ℚ) (m : Str) :
    findPlayer (h2hStep s w w ws bs) m =
      if w = m then
        (findPlayer s w).map (fun p =>
          modifyOpp (ensureOpp p w) w (fun r =>
            h2hIncBlack ws bs (h2hIncWhite ws bs { r with games := r.games + 1 + 1 })))
      else findPlayer s m := by
  by_cases hw : w = m
  · rw [if_pos hw]
    simp only [h2hStep]
    split_ifs with hws hbs <;>
      rw [findPlayer_modifyPlayer, findPlayer_modifyPlayer, findPlayer_modifyPlayer,
        findPlayer_modifyPlayer, findPlayer_modifyPlayer, findPlayer_modifyPlayer] <;>
      simp [hw, Option.map_map, Function.comp_def, ensureOpp_idem, modifyOpp_modifyOpp,
        h2hIncWhite, h2hIncBlack, *]
  · rw [if_neg hw]
    simp only [h2hStep]
    split_ifs with hws hbs <;>
      rw [findPlayer_modifyPlayer, findPlayer_modifyPlayer, findPlayer_modifyPlayer,
        findPlayer_modifyPlayer, findPlayer_modifyPlayer, findPlayer_modifyPlayer] <;>
      simp [hw]

theorem h2hSym_symm (x y : Option H2HRecord) (h : H2HSym x y) : H2HSym y x := by
  cases x with
  | none =>
    cases y with
    | none => trivial
    | some r => exact h.elim
  | some r =>
    cases y with
    | none => exact h.elim
    | some r2 =>
      obtain ⟨a, b2, c, d⟩ := h
      exact ⟨a.symm, c.symm, b2.symm, d.symm⟩

theorem h2hSym_getD (x y : Option H2HRecord) (h : H2HSym x y) :
    (x.getD (H2HRecord.mk 0 0 0 0)).games = (y.getD (H2HRecord.mk 0 0 0 0)).games ∧
    (x.getD (H2HRecord.mk 0 0 0 0)).wins = (y.getD (H2HRecord.mk 0 0 0 0)).losses ∧
    (x.getD (H2HRecord.mk 0 0 0 0)).losses = (y.getD (H2HRecord.mk 0 0 0 0)).wins ∧
    (x.getD (H2HRecord.mk 0 0 0 0)).draws = (y.getD (H2HRecord.mk 0 0 0 0)).draws := by
  cases x with
  | none =>
    cases y with
    | none => exact ⟨rfl, rfl, rfl, rfl⟩
    | some r => exact h.elim
  | some r =>
    cases y with
    | none => exact h.elim
    | some r2 => exact h

theorem h2hSym_inc (ws bs : ℚ) (r r2 : H2HRecord)
    (h1 : r.games = r2.games) (h2 : r.wins = r2.losses) (h3 : r.losses = r2.wins)
    (h4 : r.draws = r2.draws) :
    H2HSym (some (h2hIncWhite ws bs { r with games := r.games + 1 }))
      (some (h2hIncBlack ws bs { r2 with games := r2.games + 1 })) := by
  unfold h2hIncWhite h2hIncBlack
  split_ifs <;>
    exact ⟨by simp [h1], by simp [h2], by simp [h3], by simp [h4]⟩

theorem h2hSym_self (x : Option H2HRecord) (h : H2HSym x x) :
    (x.getD (H2HRecord.mk 0 0 0 0)).wins = (x.getD (H2HRecord.mk 0 0 0 0)).losses := by
  cases x with
  | none => rfl
  | some r => exact h.2.1

theorem h2hSym_self_inc (ws bs : ℚ) (r : H2HRecord) (hr : r.wins = r.losses) :
    H2HSym
      (some (h2hIncBlack ws bs (h2hIncWhite ws bs { r with games := r.games + 1 + 1 })))
      (some (h2hIncBlack ws bs (h2hIncWhite ws bs { r with games := r.games + 1 + 1 }))) := by
  unfold h2hIncWhite h2hIncBlack
  split_ifs <;> refine ⟨rfl, ?_, ?_, rfl⟩ <;> simp <;> omega

/-- One head-to-head step preserves symmetry of the tallies, including
aliased self-games. -/
theorem h2hOk_h2hStep (s : RatingState) (w b : Str) (ws bs : ℚ) (h : H2HOk s) :
    H2HOk (h2hStep s w b ws bs) := by
  by_cases hab : w = b
  · subst hab
    intro pn qn pp qp hpn hqn
    rw [h2hStep_find_alias] at hpn hqn
    by_cases hp1 : w = pn
    · subst hp1
      rw [if_pos rfl] at hpn
      obtain ⟨pold, hfold, hppe⟩ := map_eq_some _ _ _ hpn
      subst hppe
      by_cases hq1 : w = qn
      · subst hq1
        rw [if_pos rfl] at hqn
        obtain ⟨pold2, hfold2, hqpe⟩ := map_eq_some _ _ _ hqn
        subst hqpe
        rw [hfold] at hfold2
        injection hfold2 with he
        subst he
        rw [oppChain1_lookup, if_pos rfl]
        exact h2hSym_self_inc ws bs _ (h2hSym_self _ (h w w pold pold hfold hfold))
      · rw [if_neg hq1] at hqn
        rw [oppChain1_lookup, if_neg hq1]
        exact h w qn pold qp hfold hqn
    · rw [if_neg hp1] at hpn
      by_cases hq1 : w = qn
      · subst hq1
        rw [if_pos rfl] at hqn
        obtain ⟨pold, hfold, hqpe⟩ := map_eq_some _ _ _ hqn
        subst hqpe
        rw [oppChain1_lookup, if_neg hp1]
        exact h pn w pp pold hpn hfold
      · rw [if_neg hq1] at hqn
        exact h pn qn pp qp hpn hqn
  · intro pn qn pp qp hpn hqn
    have hbw : ¬(b = w) := fun hc => hab hc.symm
    by_cases hp1 : w = pn <;> by_cases hp2 : b = pn
    · exact absurd (hp1.trans hp2.symm) hab
    all_goals by_cases hq1 : w = qn <;> by_cases hq2 : b = qn
    -- pn = w cases
    · exact absurd (hq1.trans hq2.symm) hab
    · -- pn = w, qn = w
      subst hp1; subst hq1
      rw [h2hStep_find_w s w b ws bs hab] at hpn hqn
      obtain ⟨pold, hfold, hppe⟩ := map_eq_some _ _ _ hpn
      obtain ⟨pold2, hfold2, hqpe⟩ := map_eq_some _ _ _ hqn
      subst hppe; subst hqpe
      rw [hfold] at hfold2
      injection hfold2 with he
      subst he
      rw [modifyOpp_modifyOpp, oppChain1_lookup, if_neg hbw]
      exact h w w pold pold hfold hfold
    · -- pn = w, qn = b
      subst hp1; subst hq2
      rw [h2hStep_find_w s w b ws bs hab] at hpn
      rw [h2hStep_find_b s w b ws bs hab] at hqn
      obtain ⟨pwold, hfw, hppe⟩ := map_eq_some _ _ _ hpn
      obtain ⟨pbold, hfb, hqpe⟩ := map_eq_some _ _ _ hqn
      subst hppe; subst hqpe
      rw [modifyOpp_modifyOpp, oppChain1_lookup, if_pos rfl,
        modifyOpp_modifyOpp, oppChain1_lookup, if_pos rfl]
      have hc := h2hSym_getD _ _ (h w b pwold pbold hfw hfb)
      exact h2hSym_inc ws bs _ _ hc.1 hc.2.1 hc.2.2.1 hc.2.2.2
    · -- pn = w, qn other
      subst hp1
      rw [h2hStep_find_w s w b ws bs hab] at hpn
      rw [h2hStep_find_other s w b ws bs qn hq1 hq2] at hqn
      obtain ⟨pold, hfold, hppe⟩ := map_eq_some _ _ _ hpn
      subst hppe
      rw [modifyOpp_modifyOpp, oppChain1_lookup, if_neg hq2]
      exact h w qn pold qp hfold hqn
    -- pn = b cases
    · exact absurd (hq1.trans hq2.symm) hab
    · -- pn = b, qn = w
      subst hp2; subst hq1
      rw [h2hStep_find_b s w b ws bs hab] at hpn
      rw [h2hStep_find_w s w b ws bs hab] at hqn
      obtain ⟨pbold, hfb, hppe⟩ := map_eq_some _ _ _ hpn
      obtain ⟨pwold, hfw, hqpe⟩ := map_eq_some _ _ _ hqn
      subst hppe; subst hqpe
      rw [modifyOpp_modifyOpp, oppChain1_lookup, if_pos rfl,
        modifyOpp_modifyOpp, oppChain1_lookup, if_pos rfl]
      have hc := h2hSym_getD _ _ (h w b pwold pbold hfw hfb)
      exact h2hSym_symm _ _ (h2hSym_inc ws bs _ _ hc.1 hc.2.1 hc.2.2.1 hc.2.2.2)
    · -- pn = b, qn = b
      subst hp2; subst hq2
      rw [h2hStep_find_b s w b ws bs hab] at hpn hqn
      obtain ⟨pold, hfold, hppe⟩ := map_eq_some _ _ _ hpn
      obtain ⟨pold2, hfold2, hqpe⟩ := map_eq_some _ _ _ hqn
      subst hppe; subst hqpe
      rw [hfold] at hfold2
      injection hfold2 with he
      subst he
      rw [modifyOpp_modifyOpp, oppChain1_lookup, if_neg hab]
      exact h b b pold pold hfold hfold
    · -- pn = b, qn other
      subst hp2
      rw [h2hStep_find_b s w b ws bs hab] at hpn
      rw [h2hStep_find_other s w b ws bs qn hq1 hq2] at hqn
      obtain ⟨pold, hfold, hppe⟩ := map_eq_some _ _ _ hpn
      subst hppe
      rw [modifyOpp_modifyOpp, oppChain1_lookup, if_neg hq1]
      exact h b qn pold qp hfold hqn
    -- pn other cases
    · exact absurd (hq1.trans hq2.symm) hab
    · -- pn other, qn = w
      subst hq1
      rw [h2hStep_find_other s w b ws bs pn hp1 hp2] at hpn
      rw [h2hStep_find_w s w b ws bs hab] at hqn
      obtain ⟨pold, hfold, hqpe⟩ := map_eq_some _ _ _ hqn
      subst hqpe
      rw [modifyOpp_modifyOpp, oppChain1_lookup, if_neg hp2]
      exact h pn w pp pold hpn hfold
    · -- pn other, qn = b
      subst hq2
      rw [h2hStep_find_other s w b ws bs pn hp1 hp2] at hpn
      rw [h2hStep_find_b s w b ws bs hab] at hqn
      obtain ⟨pold, hfold, hqpe⟩ := map_eq_some _ _ _ hqn
      subst hqpe
      rw [modifyOpp_modifyOpp, oppChain1_lookup, if_neg hp1]
      exact h pn b pp pold hpn hfold
    · -- both other
      rw [h2hStep_find_other s w b ws bs pn hp1 hp2] at hpn
      rw [h2hStep_find_other s w b ws bs qn hq1 hq2] at hqn
      exact h pn qn pp qp hpn hqn

theorem isSome_eq_of_unit_map (x y : Option Player)
    (h : x.map (fun _ => ()) = y.map (fun _ => ())) : x.isSome = y.isSome := by
  cases x <;> cases y <;> simp_all

theorem isSome_find_modify (s : RatingState) (n : Str) (f : Player → Player) (m : Str) :
    (findPlayer (modifyPlayer s n f) m).isSome = (findPlayer s m).isSome :=
  isSome_eq_of_unit_map _ _ (map_find_modify (fun _ => ()) f (fun p => rfl) s n m)

theorem isSome_find_init_w (s : RatingState) (w b : Str) :
    (findPlayer (init_player (init_player s w) b) w).isSome = true := by
  rw [findPlayer_init_player]
  split
  · rfl
  · rw [findPlayer_init_player, if_pos rfl]; rfl

theorem isSome_find_init_b (s : RatingState) (w b : Str) :
    (findPlayer (init_player (init_player s w) b) b).isSome = true := by
  rw [findPlayer_init_player, if_pos rfl]; rfl

theorem oppReg_init_player (s : RatingState) (n : Str) (h : OppReg s) :
    OppReg (init_player s n) := by
  intro m p hp o hso
  rcases findPlayer_init_cases s n m p hp with h1 | ⟨h1, _, _⟩
  · have h2 := h m p h1 o hso
    cases hq : findPlayer s o with
    | none => rw [hq] at h2; simp at h2
    | some q => rw [findPlayer_init_of_found s n o q hq]; rfl
  · rw [h1] at hso
    exact absurd hso (by simp [defaultPlayer, alLookup])

theorem oppReg_of_map_eq (s s' : RatingState)
    (hm : ∀ m, (findPlayer s' m).map (fun p => p.opponents) =
      (findPlayer s m).map (fun p => p.opponents))
    (hs : OppReg s) : OppReg s' := by
  intro m p hp o hso
  have h1 := hm m
  rw [hp] at h1
  cases hq : findPlayer s m with
  | none => rw [hq] at h1; simp at h1
  | some q =>
    rw [hq] at h1; simp at h1
    rw [h1] at hso
    have h2 := hs m q hq o hso
    have h3 := hm o
    cases hqo : findPlayer s o with
    | none => rw [hqo] at h2; simp at h2
    | some qo =>
      rw [hqo] at h3
      cases hso2 : findPlayer s' o with
      | none => rw [hso2] at h3; simp at h3
      | some po => rfl

theorem h2hOk_of_map_eq (s s' : RatingState)
    (hm : ∀ m, (findPlayer s' m).map (fun p => p.opponents) =
      (findPlayer s m).map (fun p => p.opponents))
    (hs : H2HOk s) : H2HOk s' := by
  intro pn qn pp qp hpn hqn
  have h1 := hm pn
  rw [hpn] at h1
  have h2 := hm qn
  rw [hqn] at h2
  cases hq1 : findPlayer s pn with
  | none => rw [hq1] at h1; simp at h1
  | some p1 =>
    rw [hq1] at h1; simp at h1
    cases hq2 : findPlayer s qn with
    | none => rw [hq2] at h2; simp at h2
    | some p2 =>
      rw [hq2] at h2; simp at h2
      rw [h1, h2]
      exact hs pn qn p1 p2 hq1 hq2

theorem h2hOk_init_player (s : RatingState) (n : Str) (hreg : OppReg s)
    (h : H2HOk s) : H2HOk (init_player s n) := by
  intro pn qn pp qp hpn hqn
  rcases findPlayer_init_cases s n pn pp hpn with h1 | ⟨h1, _, h1n⟩
  · rcases findPlayer_init_cases s n qn qp hqn with h3 | ⟨h3, _, h3n⟩
    · exact h pn qn pp qp h1 h3
    · have hnone : alLookup pp.opponents qn = none := by
        cases hl : alLookup pp.opponents qn with
        | none => rfl
        | some r =>
          have h4 := hreg pn pp h1 qn (by rw [hl]; rfl)
          rw [h3n] at h4
          simp at h4
      rw [hnone, h3]
      show H2HSym none (alLookup ([] : List (Str × H2HRecord)) pn)
      trivial
  · rcases findPlayer_init_cases s n qn qp hqn with h3 | ⟨h3, _, h3n⟩
    · have hnone : alLookup qp.opponents pn = none := by
        cases hl : alLookup qp.opponents pn with
        | none => rfl
        | some r =>
          have h4 := hreg qn qp h3 pn (by rw [hl]; rfl)
          rw [h1n] at h4
          simp at h4
      rw [hnone, h1]
      show H2HSym (alLookup ([] : List (Str × H2HRecord)) qn) none
      trivial
    · rw [h1, h3]
      show H2HSym (alLookup ([] : List (Str × H2HRecord)) qn)
        (alLookup ([] : List (Str × H2HRecord)) pn)
      trivial

/-- The head-to-head step only adds the two participants (already
registered at that point) as opponent keys. -/
theorem oppReg_h2hStep (s : RatingState) (w b : Str) (ws bs : ℚ)
    (hw : (findPlayer s w).isSome = true) (hb : (findPlayer s b).isSome = true)
    (h : OppReg s) : OppReg (h2hStep s w b ws bs) := by
  have hkeys : ∀ o, (findPlayer (h2hStep s w b ws bs) o).isSome = (findPlayer s o).isSome := by
    intro o
    by_cases hab : w = b
    · subst hab
      rw [h2hStep_find_alias]
      split
      · next hwo => subst hwo; cases findPlayer s w <;> rfl
      · rfl
    · by_cases h1 : w = o
      · subst h1; rw [h2hStep_find_w s w b ws bs hab]; cases findPlayer s w <;> rfl
      · by_cases h2 : b = o
        · subst h2; rw [h2hStep_find_b s w b ws bs hab]; cases findPlayer s b <;> rfl
        · rw [h2hStep_find_other s w b ws bs o h1 h2]
  intro m p hp o hso
  rw [hkeys o]
  by_cases hab : w = b
  · subst hab
    rw [h2hStep_find_alias] at hp
    by_cases h1 : w = m
    · rw [if_pos h1] at hp
      obtain ⟨pold, hfold, hpe⟩ := map_eq_some _ _ _ hp
      subst hpe
      rw [oppChain1_lookup] at hso
      by_cases h2 : w = o
      · subst h2; exact hw
      · rw [if_neg h2] at hso
        exact h w pold hfold o hso
    · rw [if_neg h1] at hp
      exact h m p hp o hso
  · by_cases h1 : w = m
    · subst h1
      rw [h2hStep_find_w s w b ws bs hab] at hp
      obtain ⟨pold, hfold, hpe⟩ := map_eq_some _ _ _ hp
      subst hpe
      rw [modifyOpp_modifyOpp, oppChain1_lookup] at hso
      by_cases h2 : b = o
      · subst h2; exact hb
      · rw [if_neg h2] at hso
        exact h w pold hfold o hso
    · by_cases h2 : b = m
      · subst h2
        rw [h2hStep_find_b s w b ws bs hab] at hp
        obtain ⟨pold, hfold, hpe⟩ := map_eq_some _ _ _ hp
        subst hpe
        rw [modifyOpp_modifyOpp, oppChain1_lookup] at hso
        by_cases h3 : w = o
        · subst h3; exact hw
        · rw [if_neg h3] at hso
          exact h b pold hfold o hso
      · rw [h2hStep_find_other s w b ws bs m h1 h2] at hp
        exact h m p hp o hso

theorem isSome_find_glickoStep (s : RatingState) (w b : Str) (sc : ℚ) (m : Str) :
    (findPlayer (glickoStep s w b sc) m).isSome = (findPlayer s m).isSome :=
  isSome_eq_of_unit_map _ _
    (map_find_glickoStep (fun _ => ()) (fun p x y z => rfl) s w b sc m)

theorem isSome_find_uscfStep (s : RatingState) (w b : Str) (sc : ℚ) (m : Str) :
    (findPlayer (uscfStep s w b sc) m).isSome = (findPlayer s m).isSome :=
  isSome_eq_of_unit_map _ _
    (map_find_uscfStep (fun _ => ()) (fun p x => rfl) (fun p x => rfl) s w b sc m)

theorem isSome_find_recordsStep (s : RatingState) (w b : Str) (ws bs : ℚ)
    (wrb brb : ℤ) (n : ℕ) (d : Option Str) (m : Str) :
    (findPlayer (recordsStep s w b ws bs wrb brb n d) m).isSome = (findPlayer s m).isSome :=
  isSome_eq_of_unit_map _ _
    (map_find_recordsStep (fun _ => ()) (fun p l => rfl) (fun p l => rfl) s w b ws bs wrb brb n d m)

theorem isSome_find_countStep (s : RatingState) (w b : Str) (m : Str) :
    (findPlayer (countStep s w b) m).isSome = (findPlayer s m).isSome :=
  isSome_eq_of_unit_map _ _ (map_find_countStep (fun _ => ()) (fun p x => rfl) s w b m)

theorem isSome_find_wdlStep (s : RatingState) (w b : Str) (ws bs : ℚ) (m : Str) :
    (findPlayer (wdlStep s w b ws bs) m).isSome = (findPlayer s m).isSome :=
  isSome_eq_of_unit_map _ _
    (map_find_wdlStep (fun _ => ()) (fun p x => rfl) (fun p x => rfl) (fun p x => rfl)
      s w b ws bs m)

theorem hregPair_setGames (s : RatingState) (g : List GameRecord)
    (h : H2HOk s ∧ OppReg s) : H2HOk { s with games := g } ∧ OppReg { s with games := g } :=
  ⟨fun pn qn pp qp hpn hqn => h.1 pn qn pp qp hpn hqn,
   fun m p hp o hso => h.2 m p hp o hso⟩

theorem hregPair_of_map_eq (s s' : RatingState)
    (hm : ∀ m, (findPlayer s' m).map (fun p => p.opponents) =
      (findPlayer s m).map (fun p => p.opponents))
    (h : H2HOk s ∧ OppReg s) : H2HOk s' ∧ OppReg s' :=
  ⟨h2hOk_of_map_eq s s' hm h.1, oppReg_of_map_eq s s' hm h.2⟩

theorem hregPair_h2hStep (s : RatingState) (w b : Str) (ws bs : ℚ)
    (hw : (findPlayer s w).isSome = true) (hb : (findPlayer s b).isSome = true)
    (h : H2HOk s ∧ OppReg s) :
    H2HOk (h2hStep s w b ws bs) ∧ OppReg (h2hStep s w b ws bs) :=
  ⟨h2hOk_h2hStep s w b ws bs h.1, oppReg_h2hStep s w b ws bs hw hb h.2⟩

theorem hreg_processGame (s : RatingState) (line : Str) (n : ℕ)
    (h : H2HOk s ∧ OppReg s) :
    H2HOk (processGame s line n) ∧ OppReg (processGame s line n) := by
  unfold processGame
  cases hp : parseLine line with
  | structFail => exact h
  | resultFail w b =>
    have r1 := oppReg_init_player s w h.2
    exact ⟨h2hOk_init_player _ b r1 (h2hOk_init_player s w h.2 h.1),
      oppReg_init_player _ b r1⟩
  | ok w b ws bs result d =>
    simp only [okUpdate]
    apply hregPair_setGames
    apply hregPair_of_map_eq _ _
      (fun m => map_find_historyStep (fun p => p.opponents) (fun p x => rfl) _ _ _ _ _ _)
    apply hregPair_h2hStep
    · rw [isSome_find_wdlStep, isSome_find_countStep, isSome_find_recordsStep,
        isSome_find_modify, isSome_find_modify, isSome_find_uscfStep,
        isSome_find_glickoStep, isSome_find_modify, isSome_find_modify,
        isSome_find_init_w]
    · rw [isSome_find_wdlStep, isSome_find_countStep, isSome_find_recordsStep,
        isSome_find_modify, isSome_find_modify, isSome_find_uscfStep,
        isSome_find_glickoStep, isSome_find_modify, isSome_find_modify,
        isSome_find_init_b]
    apply hregPair_of_map_eq _ _
      (fun m => map_find_wdlStep (fun p => p.opponents) (fun p x => rfl)
        (fun p x => rfl) (fun p x => rfl) _ _ _ _ _ _)
    apply hregPair_of_map_eq _ _
      (fun m => map_find_countStep (fun p => p.opponents) (fun p x => rfl) _ _ _ _)
    apply hregPair_of_map_eq _ _
      (fun m => map_find_recordsStep (fun p => p.opponents) (fun p l => rfl)
        (fun p l => rfl) _ _ _ _ _ _ _ _ _ _)
    apply hregPair_of_map_eq _ _
      (fun m => map_find_extremes (fun p => p.opponents) (fun p a c d e f g => rfl) _ _ _)
    apply hregPair_of_map_eq _ _
      (fun m => map_find_extremes (fun p => p.opponents) (fun p a c d e f g => rfl) _ _ _)
    apply hregPair_of_map_eq _ _
      (fun m => map_find_uscfStep (fun p => p.opponents) (fun p x => rfl)
        (fun p x => rfl) _ _ _ _ _)
    apply hregPair_of_map_eq _ _
      (fun m => map_find_glickoStep (fun p => p.opponents) (fun p x y z => rfl) _ _ _ _ _)
    apply hregPair_of_map_eq _ _
      (fun m => map_find_eloMods (fun p => p.opponents) (fun p x => rfl) _ _ _ _ _ _)
    have r1 := oppReg_init_player s w h.2
    exact ⟨h2hOk_init_player _ b r1 (h2hOk_init_player s w h.2 h.1),
      oppReg_init_player _ b r1⟩

theorem hreg_processFrom (lines : List Str) :
    ∀ (s : RatingState) (i : ℕ), H2HOk s ∧ OppReg s →
      H2HOk (processFrom s i lines) ∧ OppReg (processFrom s i lines) := by
  induction lines with
  | nil => exact fun s i h => h
  | cons l t ih => exact fun s i h => ih _ _ (hreg_processGame _ _ _ h)

/-- C10: after processing any prefix of the input log, head-to-head
tallies are symmetric: for every pair of players, one side has an entry
for the other iff the converse holds, and then the two entries have
equal `games`, mirrored `wins`/`losses`, and equal `draws`. -/
theorem C10_h2h_symmetry (lines : List Str) : H2HOk (processAll lines) :=
  (hreg_processFrom lines initState 1
    ⟨fun pn qn pp qp hpn _ => by simp [findPlayer, initState, alLookup] at hpn,
     fun m p hp => by simp [findPlayer, initState, alLookup] at hp⟩).1

/-- Witness for C10: after processing `"A - B x"`, the pair of fresh
players has symmetric (both absent) head-to-head entries. -/
theorem C10_h2h_symmetry_witness :
    H2HSym (alLookup (defaultPlayer (str "A")).opponents (str "B"))
      (alLookup (defaultPlayer (str "B")).opponents (str "A")) :=
  C10_h2h_symmetry [str "A - B x"] (str "A") (str "B")
    (defaultPlayer (str "A")) (defaultPlayer (str "B")) rfl rfl

/-- Witness for the amended C4: `"20251231"` renders as
`"Dec 31, 2025"`, and `"20251301"` yields the no-date result. -/
theorem C4_format_date_amended_witness :
    format_date (str "2025" ++ twoDigits 12 ++ twoDigits 31) =
      some (months.getD 11 [] ++ [' '] ++ Nat.toDigits 10 31 ++ [',', ' '] ++ str "2025") ∧
    format_date (str "2025" ++ twoDigits 13 ++ twoDigits 1) = none ∧
    format_date (str "2025ab31") = none ∧
    format_date (str "202512a!") = none :=
  ⟨(C4_format_date_amended (str "2025") rfl 12 31 (by omega) (by omega)).1
      (by omega) (by omega),
   (C4_format_date_amended (str "2025") rfl 13 1 (by omega) (by omega)).2.2.1 (by omega),
   (C4_format_date_amended (str "2025") rfl 13 1 (by omega) (by omega)).2.2.2
      (str "2025ab31") (by decide) (Or.inl (by decide)),
   (C4_format_date_amended (str "2025") rfl 13 1 (by omega) (by omega)).2.2.2
      (str "202512a!") (by decide) (Or.inr (by decide))⟩

end ChessRating
